import Mathlib

/-!
# cert-policy-controller: generic resource resolver and hub credential loader

A shallow embedding of `pkg/common/policyReader.go` and `pkg/common/kubeClient.go`.

* Go byte slices and strings are lists of byte values (`List Nat`, every value read `% 256`
  where its numeric value matters).
* The API server and the client libraries (discovery, deserializer, REST mapper, dynamic
  client, JSON parser, kubeconfig parser) are collaborators outside the repository: their
  answers are fields of `KubeClientI`, `DynamicClient` and `Libs`.
* A Go call ends in one of three ways: it returns, it reaches `klog.Fatal` (which exits the
  process), or it panics at run time.  `Outcome` keeps the three apart.
* Package-level variables (`KubeClient`, `KubeConfig`, `HubConfig`) are the fields of
  `ProcessState`, passed in and handed back explicitly.
* Every request sent to the API server is recorded in a list of `APICall`.
-/

namespace CertPolicy

/-! ## Errors and outcomes -/

/-- Reason carried by an error, as read by `errors.ReasonForError`. -/
inductive StatusReason
  | NotFound
  | Forbidden
  | Unauthorized
  | Timeout
  | ServiceUnavailable
  | InternalError
  | Unknown
deriving DecidableEq, Repr

/-- A Go `error` value (non-nil). A nil error is `none : Option Error`. -/
structure Error where
  reason : StatusReason
  message : String
deriving DecidableEq, Repr

/-- The test `errors.IsNotFound(err)`. -/
def IsNotFound (e : Error) : Bool :=
  decide (e.reason = StatusReason.NotFound)

/-- How a Go call ends: normal return, `klog.Fatal` (process exit), or a run-time panic. -/
inductive Outcome (α : Type) where
  | ret (a : α)
  | fatal (e : Error)
  | panic (msg : String)

/-- The outcome is a `klog.Fatal` exit. -/
def Outcome.isFatal {α : Type} : Outcome α → Bool
  | Outcome.fatal _ => true
  | _ => false

/-- The outcome is a run-time panic. -/
def Outcome.isPanic {α : Type} : Outcome α → Bool
  | Outcome.panic _ => true
  | _ => false

/-! ## Data model -/

structure GroupVersion where
  Group : String
  Version : String
deriving DecidableEq, Repr

structure GroupKind where
  Group : String
  Kind : String
deriving DecidableEq, Repr

structure GroupVersionKind where
  Group : String
  Version : String
  Kind : String
deriving DecidableEq, Repr

/-- The method `gvk.GroupKind()`. -/
def GroupVersionKind.GroupKind (gvk : GroupVersionKind) : GroupKind :=
  { Group := gvk.Group, Kind := gvk.Kind }

structure GroupVersionResource where
  Group : String
  Version : String
  Resource : String
deriving DecidableEq, Repr

/-- The fields of `meta.RESTMapping` that the resolver reads. -/
structure RESTMapping where
  Resource : GroupVersionResource
  GroupVersionKind : GroupVersionKind
deriving DecidableEq, Repr

/-- One entry of a discovery list (`metav1.APIResource`). -/
structure APIResource where
  Name : String
  Kind : String
  Namespaced : Bool
deriving DecidableEq, Repr

/-- One group/version of a discovery snapshot (`metav1.APIResourceList`). -/
structure APIResourceList where
  GroupVersion : String
  APIResources : List APIResource
deriving DecidableEq, Repr

/-- The result of `restmapper.GetAPIGroupResources`; only handed on to the REST mapper. -/
structure APIGroupResources where
  groups : List APIResourceList
deriving DecidableEq, Repr

/-- A decoded JSON value, the Go `interface{}` produced by `json.Unmarshal`. -/
inductive JVal where
  | null
  | bool (b : Bool)
  | num (digits : String)
  | str (s : String)
  | arr (xs : List JVal)
  | obj (kvs : List (String × JVal))

/-- A Go `map[string]interface{}`, keys looked up with `List.lookup`. -/
abbrev JMap := List (String × JVal)

/-- The struct `unstructured.Unstructured`; `Object = none` is the nil map of the zero value. -/
structure Unstructured where
  Object : Option JMap

/-- The zero value `var unstruct unstructured.Unstructured`. -/
def Unstructured.zero : Unstructured := { Object := none }

/-- The struct `rest.Config`, with the field written by the resolver. -/
structure RestConfig where
  Host : String
  GroupVersion : Option GroupVersion
deriving DecidableEq, Repr

/-- A `corev1.Secret`: its `Data` map from key to bytes. -/
structure Secret where
  Data : List (String × List Nat)
deriving DecidableEq, Repr

/-- Reading `secret.Data[key]`: a missing key gives the nil (empty) byte slice. -/
def Secret.get (s : Secret) (key : String) : List Nat :=
  (s.Data.lookup key).getD []

/-- Requests sent to the API server. -/
inductive APICall where
  | discoveryGroups
  | serverResources
  | get (nspace : Option String) (name : String) (rsrc : GroupVersionResource)
  | secretGet (nspace : String) (name : String)
deriving DecidableEq, Repr

/-! ## Collaborators -/

/-- The discovery client `(*KubeClient).Discovery()`. -/
structure DiscoveryClient where
  GetAPIGroupResources : Except Error APIGroupResources
  ServerResources : Except Error (List APIResourceList)

/-- The `kubernetes.Interface` held in `KubeClient`. -/
structure KubeClientI where
  Discovery : DiscoveryClient
  SecretsGet : String → String → Except Error Secret

/-- The dynamic client: `Resource(rsrc).Get(name)` when the second argument is `none`,
`Resource(rsrc).Namespace(ns).Get(name)` when it is `some ns`. A Go call returns a pair
(pointer, error), either of which may be nil. -/
structure DynamicClient where
  Get : GroupVersionResource → Option String → String → Option Unstructured × Option Error

/-- Library functions called by the package. -/
structure Libs where
  Decode : List Nat → Except Error GroupVersionKind
  RESTMapping : APIGroupResources → GroupKind → String → Except Error RESTMapping
  NewForConfig : RestConfig → Except Error DynamicClient
  Unmarshal : List Nat → Except Error JVal
  RESTConfigFromKubeConfig : List Nat → Except Error RestConfig

/-- Package-level variables of `common`. `none` is a nil pointer. -/
structure ProcessState where
  KubeClient : Option KubeClientI
  KubeConfig : Option RestConfig
  HubConfig : Option RestConfig

/-- What a call leaves behind: its outcome, the package state and the requests it sent. -/
structure Run (α : Type) where
  out : Outcome α
  state : ProcessState
  calls : List APICall

/-! ## policyReader.go -/

/-- The function `joinStr(strs ...string)`: `none` is the index-out-of-range panic of
`strs[0]` on an empty argument list. -/
def joinStr (strs : List String) : Option String :=
  match strs with
  | [] => none
  | s0 :: rest =>
    if s0 = "" then (s0 :: rest).getLast?
    else some ((s0 :: rest).foldl (fun result str => result ++ str) "")

/-- The function `getTheObject`, with the request it sends. -/
def getTheObject (namespaced : Bool) (nspace : String) (name : String)
    (rsrc : GroupVersionResource) (_unstruct : Unstructured) (dclient : DynamicClient) :
    (Option Unstructured × Option Error) × List APICall :=
  if !namespaced then
    let (inst, err) := dclient.Get rsrc none name
    let calls := [APICall.get none name rsrc]
    match err with
    | some e =>
      if IsNotFound e then ((none, none), calls)
      else ((none, none), calls)
    | none => ((inst, err), calls)
  else
    let (inst, err) := dclient.Get rsrc (some nspace) name
    let calls := [APICall.get (some nspace) name rsrc]
    match err with
    | some e =>
      if IsNotFound e then ((inst, err), calls)
      else ((none, none), calls)
    | none => ((inst, err), calls)

/-- The inner loop of the scope resolution (lines 69-75) over one group/version. -/
def scanResources (mapping : RESTMapping) (namespaced : Bool) (rs : List APIResource) : Bool :=
  rs.foldl (fun ns apiresource =>
    if apiresource.Name = mapping.Resource.Resource ∧
        apiresource.Kind = mapping.GroupVersionKind.Kind then apiresource.Namespaced
    else ns) namespaced

/-- The scope resolution loop of `GetGenericObject` (lines 66-77), started from the
current value of `namespaced`. -/
def scanGroups (mapping : RESTMapping) (namespaced : Bool)
    (apiresourcelist : List APIResourceList) : Bool :=
  apiresourcelist.foldl (fun ns apiresourcegroup =>
    if some apiresourcegroup.GroupVersion =
        joinStr [mapping.GroupVersionKind.Group, "/", mapping.GroupVersionKind.Version] then
      scanResources mapping ns apiresourcegroup.APIResources
    else ns) namespaced

/-- The name read from `unstruct.Object["metadata"]["name"]` (lines 87-93). The two type
assertions panic on a value of another shape: `Except.error` carries the panic message. -/
def objectName (object : JMap) : Except String String :=
  match object.lookup "metadata" with
  | none => Except.ok ""
  | some (JVal.obj metadata) =>
    match metadata.lookup "name" with
    | none => Except.ok ""
    | some (JVal.str s) => Except.ok s
    | some _ => Except.error "interface conversion: value is not a string"
  | some _ => Except.error "interface conversion: value is not a map"

/-- The function `GetGenericObject`. -/
def GetGenericObject (L : Libs) (st : ProcessState) (data : List Nat) (nspace : String) :
    Run (Unstructured × Option Error) :=
  let unstruct := Unstructured.zero
  let namespaced := true
  match st.KubeClient with
  | none => { out := Outcome.panic "nil pointer dereference", state := st, calls := [] }
  | some kc =>
  let dd := kc.Discovery
  match dd.GetAPIGroupResources with
  | Except.error e => { out := Outcome.fatal e, state := st, calls := [APICall.discoveryGroups] }
  | Except.ok apigroups =>
  match L.Decode data with
  | Except.error err =>
    { out := Outcome.ret (unstruct, some err), state := st, calls := [APICall.discoveryGroups] }
  | Except.ok gvk =>
  match L.RESTMapping apigroups gvk.GroupKind gvk.Version with
  | Except.error err =>
    { out := Outcome.ret (unstruct, some err), state := st, calls := [APICall.discoveryGroups] }
  | Except.ok mapping =>
  match st.KubeConfig with
  | none =>
    { out := Outcome.panic "nil pointer dereference", state := st,
      calls := [APICall.discoveryGroups] }
  | some cfg =>
  let restconfig : RestConfig :=
    { cfg with GroupVersion := some { Group := mapping.GroupVersionKind.Group,
                                      Version := mapping.GroupVersionKind.Version } }
  let st1 : ProcessState := { st with KubeConfig := some restconfig }
  match L.NewForConfig restconfig with
  | Except.error e =>
    { out := Outcome.fatal e, state := st1, calls := [APICall.discoveryGroups] }
  | Except.ok dclient =>
  match dd.ServerResources with
  | Except.error e =>
    { out := Outcome.fatal e, state := st1,
      calls := [APICall.discoveryGroups, APICall.serverResources] }
  | Except.ok apiresourcelist =>
  let rsrc := mapping.Resource
  let namespaced := scanGroups mapping namespaced apiresourcelist
  match L.Unmarshal data with
  | Except.error e =>
    { out := Outcome.fatal e, state := st1,
      calls := [APICall.discoveryGroups, APICall.serverResources] }
  | Except.ok (JVal.obj object) =>
    let unstruct : Unstructured := { Object := some object }
    match objectName object with
    | Except.error msg =>
      { out := Outcome.panic msg, state := st1,
        calls := [APICall.discoveryGroups, APICall.serverResources] }
    | Except.ok name =>
      let r := getTheObject namespaced nspace name rsrc unstruct dclient
      match r.1.1 with
      | some inst =>
        { out := Outcome.ret (inst, r.1.2), state := st1,
          calls := [APICall.discoveryGroups, APICall.serverResources] ++ r.2 }
      | none =>
        { out := Outcome.panic "nil pointer dereference", state := st1,
          calls := [APICall.discoveryGroups, APICall.serverResources] ++ r.2 }
  | Except.ok _ =>
    { out := Outcome.panic "interface conversion: value is not a map", state := st1,
      calls := [APICall.discoveryGroups, APICall.serverResources] }

/-! ## kubeClient.go -/

/-- Bytes of an ASCII string literal. -/
def ascii (s : String) : List Nat :=
  s.toList.map Char.toNat

/-- One symbol of the standard base64 alphabet `A-Z a-z 0-9 + /`, by its index. -/
def b64Char (i : Nat) : Nat :=
  if i < 26 then 65 + i
  else if i < 52 then 97 + (i - 26)
  else if i < 62 then 48 + (i - 52)
  else if i = 62 then 43
  else 47

/-- The function `base64.StdEncoding.EncodeToString`: three bytes give four symbols, the
last group is padded with `=` (61). -/
def EncodeToString : List Nat → List Nat
  | [] => []
  | [a] =>
    [b64Char (a % 256 / 4), b64Char (a % 256 % 4 * 16), 61, 61]
  | [a, b] =>
    [b64Char (a % 256 / 4), b64Char (a % 256 % 4 * 16 + b % 256 / 16),
     b64Char (b % 256 % 16 * 4), 61]
  | a :: b :: c :: rest =>
    [b64Char (a % 256 / 4), b64Char (a % 256 % 4 * 16 + b % 256 / 16),
     b64Char (b % 256 % 16 * 4 + c % 256 / 64), b64Char (c % 256 % 64)] ++ EncodeToString rest

/-- The class `\s` of Go regular expressions: tab, newline, form feed, carriage return,
space. -/
def isSpace (b : Nat) : Bool :=
  b = 9 || b = 10 || b = 12 || b = 13 || b = 32

/-- A continuation byte `0x80..0xBF` of a UTF-8 sequence. -/
def isCont (b : Nat) : Bool :=
  decide (128 ≤ b ∧ b ≤ 191)

/-- Number of bytes taken by the rune at the head of the text, as `utf8.DecodeRune` does:
a well-formed sequence of 1 to 4 bytes, or 1 byte for anything ill-formed. -/
def runeWidth : List Nat → Nat
  | b0 :: b1 :: b2 :: b3 :: _ =>
    if 194 ≤ b0 ∧ b0 ≤ 223 then (if isCont b1 then 2 else 1)
    else if b0 = 224 then (if 160 ≤ b1 ∧ b1 ≤ 191 ∧ isCont b2 then 3 else 1)
    else if (225 ≤ b0 ∧ b0 ≤ 236) ∨ b0 = 238 ∨ b0 = 239 then
      (if isCont b1 ∧ isCont b2 then 3 else 1)
    else if b0 = 237 then (if 128 ≤ b1 ∧ b1 ≤ 159 ∧ isCont b2 then 3 else 1)
    else if b0 = 240 then (if 144 ≤ b1 ∧ b1 ≤ 191 ∧ isCont b2 ∧ isCont b3 then 4 else 1)
    else if 241 ≤ b0 ∧ b0 ≤ 243 then (if isCont b1 ∧ isCont b2 ∧ isCont b3 then 4 else 1)
    else if b0 = 244 then (if 128 ≤ b1 ∧ b1 ≤ 143 ∧ isCont b2 ∧ isCont b3 then 4 else 1)
    else 1
  | [b0, b1, b2] =>
    if 194 ≤ b0 ∧ b0 ≤ 223 then (if isCont b1 then 2 else 1)
    else if b0 = 224 then (if 160 ≤ b1 ∧ b1 ≤ 191 ∧ isCont b2 then 3 else 1)
    else if (225 ≤ b0 ∧ b0 ≤ 236) ∨ b0 = 238 ∨ b0 = 239 then
      (if isCont b1 ∧ isCont b2 then 3 else 1)
    else if b0 = 237 then (if 128 ≤ b1 ∧ b1 ≤ 159 ∧ isCont b2 then 3 else 1)
    else 1
  | [b0, b1] =>
    if 194 ≤ b0 ∧ b0 ≤ 223 then (if isCont b1 then 2 else 1) else 1
  | _ => 1

/-- Removes a literal from the head of the text; `none` when the text does not start
with it. -/
def stripLit : List Nat → List Nat → Option (List Nat)
  | [], s => some s
  | _ :: _, [] => none
  | a :: lit, b :: s => if a = b then stripLit lit s else none

/-- A pattern of the form `(<label>\s+<stem>.<ext>)`. -/
structure RefPattern where
  label : List Nat
  stem : List Nat
  ext : List Nat

/-- The pattern `(client-certificate:\s+tls.crt)`. -/
def certPattern : RefPattern :=
  { label := ascii "client-certificate:", stem := ascii "tls", ext := ascii "crt" }

/-- The pattern `(client-key:\s+tls.key)`. -/
def keyPattern : RefPattern :=
  { label := ascii "client-key:", stem := ascii "tls", ext := ascii "key" }

/-- A match of `(<label>\s+<stem>.<ext>)` anchored at the head of the text; the result is
the text left after the match. `\s+` takes the whole run of white space (the stem starts
with a byte that is not white space, so no shorter run can match), `.` takes one rune
other than a newline. -/
def matchAt (p : RefPattern) (s : List Nat) : Option (List Nat) :=
  match stripLit p.label s with
  | none => none
  | some [] => none
  | some (b :: s2) =>
    if isSpace b then
      match stripLit p.stem (s2.dropWhile isSpace) with
      | none => none
      | some [] => none
      | some (c :: s4) =>
        if c = 10 then none
        else stripLit p.ext ((c :: s4).drop (runeWidth (c :: s4)))
    else none

/-- Scan of `ReplaceAllString`: `skip` counts the bytes of the current match that are
still to be passed over. Outside a match, a match at the head is replaced by `repl`,
otherwise the head byte is copied. -/
def replaceAllAux (p : RefPattern) (repl : List Nat) : Nat → List Nat → List Nat
  | _, [] => []
  | skip + 1, _ :: t => replaceAllAux p repl skip t
  | 0, b :: t =>
    match matchAt p (b :: t) with
    | some rest => repl ++ replaceAllAux p repl ((b :: t).length - rest.length - 1) t
    | none => b :: replaceAllAux p repl 0 t

/-- The call `re.ReplaceAllString(src, repl)` for a pattern `(<label>\s+<stem>.<ext>)` and
a replacement without `$` (the base64 alphabet and the two field labels have none, so the
replacement is copied as it is): leftmost matches, left to right, none overlapping. -/
def ReplaceAllString (p : RefPattern) (src repl : List Nat) : List Nat :=
  replaceAllAux p repl 0 src

/-- The textual rewrite of `LoadHubConfig` (lines 48-55). -/
def rewriteKubeconfig (secretkconfig tlsCrt tlsKey : List Nat) : List Nat :=
  let crt := EncodeToString tlsCrt
  let key := EncodeToString tlsKey
  let secretkconfig :=
    ReplaceAllString certPattern secretkconfig (ascii "client-certificate-data: " ++ crt)
  ReplaceAllString keyPattern secretkconfig (ascii "client-key-data: " ++ key)

/-- The function `LoadHubConfig`. -/
def LoadHubConfig (L : Libs) (st : ProcessState) (nspace : String) (secretname : String) :
    Run (Option RestConfig × Option Error) :=
  match st.HubConfig with
  | some cfg => { out := Outcome.ret (some cfg, none), state := st, calls := [] }
  | none =>
    match st.KubeClient with
    | none => { out := Outcome.panic "nil pointer dereference", state := st, calls := [] }
    | some kc =>
      match kc.SecretsGet nspace secretname with
      | Except.error err =>
        { out := Outcome.ret (none, some err), state := st,
          calls := [APICall.secretGet nspace secretname] }
      | Except.ok hubSecret =>
        let secretkconfig := rewriteKubeconfig (hubSecret.get "kubeconfig")
          (hubSecret.get "tls.crt") (hubSecret.get "tls.key")
        match L.RESTConfigFromKubeConfig secretkconfig with
        | Except.error err =>
          { out := Outcome.ret (none, some err), state := st,
            calls := [APICall.secretGet nspace secretname] }
        | Except.ok cfg =>
          { out := Outcome.ret (some cfg, none), state := { st with HubConfig := some cfg },
            calls := [APICall.secretGet nspace secretname] }

/-! ## A sample cluster

Concrete collaborators used to run the functions on explicit inputs. -/

/-- The not-found answer of the API server. -/
def notFoundErr : Error :=
  { reason := StatusReason.NotFound, message := "not found" }

/-- A permission failure of the API server. -/
def forbiddenErr : Error :=
  { reason := StatusReason.Forbidden, message := "forbidden" }

/-- A failure of a parser. -/
def parseErr : Error :=
  { reason := StatusReason.Unknown, message := "cannot parse" }

def namespacesGVR : GroupVersionResource :=
  { Group := "", Version := "v1", Resource := "namespaces" }

def secretsGVR : GroupVersionResource :=
  { Group := "", Version := "v1", Resource := "secrets" }

def namespaceMapping : RESTMapping :=
  { Resource := namespacesGVR,
    GroupVersionKind := { Group := "", Version := "v1", Kind := "Namespace" } }

def secretMapping : RESTMapping :=
  { Resource := secretsGVR,
    GroupVersionKind := { Group := "", Version := "v1", Kind := "Secret" } }

/-- A discovery snapshot of the core group: `secrets` namespaced, `namespaces` not. -/
def coreSnapshot : List APIResourceList :=
  [{ GroupVersion := "v1",
     APIResources := [{ Name := "secrets", Kind := "Secret", Namespaced := true },
                      { Name := "namespaces", Kind := "Namespace", Namespaced := false }] }]

/-- A dynamic client for which every get answers not-found. -/
def absentClient : DynamicClient :=
  { Get := fun _ _ _ => (none, some notFoundErr) }

/-- A dynamic client for which every get is refused. -/
def forbiddenClient : DynamicClient :=
  { Get := fun _ _ _ => (none, some forbiddenErr) }

/-- The manifest of the namespace `absent`, as JSON. -/
def namespaceManifest : List Nat :=
  ascii "\x7b\"apiVersion\":\"v1\",\"kind\":\"Namespace\",\"metadata\":\x7b\"name\":\"absent\"\x7d\x7d"

/-- The manifest of the namespace `absent`, as YAML. -/
def yamlManifest : List Nat :=
  ascii "apiVersion: v1\nkind: Namespace\nmetadata:\n  name: absent\n"

/-- The manifest of the secret `absent`, as JSON. -/
def secretManifest : List Nat :=
  ascii "\x7b\"apiVersion\":\"v1\",\"kind\":\"Secret\",\"metadata\":\x7b\"name\":\"absent\"\x7d\x7d"

/-- The decoded form of `namespaceManifest`. -/
def namespaceObject : JMap :=
  [("apiVersion", JVal.str "v1"), ("kind", JVal.str "Namespace"),
   ("metadata", JVal.obj [("name", JVal.str "absent")])]

/-- The decoded form of `secretManifest`. -/
def secretObject : JMap :=
  [("apiVersion", JVal.str "v1"), ("kind", JVal.str "Secret"),
   ("metadata", JVal.obj [("name", JVal.str "absent")])]

/-- Libraries of the sample cluster: the deserializer reads the three sample manifests
(JSON or YAML), the JSON parser only the JSON ones, and the dynamic client is `dclient`. -/
def sampleLibs (dclient : DynamicClient) : Libs :=
  { Decode := fun data =>
      if data = namespaceManifest ∨ data = yamlManifest then
        Except.ok { Group := "", Version := "v1", Kind := "Namespace" }
      else if data = secretManifest then
        Except.ok { Group := "", Version := "v1", Kind := "Secret" }
      else Except.error parseErr
    RESTMapping := fun _ gk version =>
      if gk = { Group := "", Kind := "Namespace" } ∧ version = "v1" then
        Except.ok namespaceMapping
      else if gk = { Group := "", Kind := "Secret" } ∧ version = "v1" then
        Except.ok secretMapping
      else Except.error parseErr
    NewForConfig := fun _ => Except.ok dclient
    Unmarshal := fun data =>
      if data = namespaceManifest then Except.ok (JVal.obj namespaceObject)
      else if data = secretManifest then Except.ok (JVal.obj secretObject)
      else Except.error parseErr
    RESTConfigFromKubeConfig := fun _ => Except.error parseErr }

/-- The client of the sample cluster: discovery answers `coreSnapshot`. -/
def sampleKube : KubeClientI :=
  { Discovery := { GetAPIGroupResources := Except.ok { groups := coreSnapshot },
                   ServerResources := Except.ok coreSnapshot }
    SecretsGet := fun _ _ => Except.error notFoundErr }

/-- The package state after `Initialize`, with no hub credential cached. -/
def sampleState : ProcessState :=
  { KubeClient := some sampleKube,
    KubeConfig := some { Host := "https://cluster.local", GroupVersion := none },
    HubConfig := none }

/-- A hub configuration. -/
def sampleHub : RestConfig :=
  { Host := "https://hub.local", GroupVersion := none }

/-- A REST mapper that looks the kind up in the discovery result it is given: the first
resource of that Kind in the group/version, or an error when there is none. -/
def findMapping (apigroups : APIGroupResources) (gk : GroupKind) (version : String) :
    Except Error RESTMapping :=
  match (apigroups.groups.filter
      (fun g => decide (some g.GroupVersion = joinStr [gk.Group, "/", version]))).findSome?
      (fun g => g.APIResources.find? (fun r => decide (r.Kind = gk.Kind))) with
  | some r =>
    Except.ok { Resource := { Group := gk.Group, Version := version, Resource := r.Name },
                GroupVersionKind := { Group := gk.Group, Version := version, Kind := gk.Kind } }
  | none => Except.error { reason := StatusReason.Unknown, message := "no matches for kind" }

/-- A later discovery snapshot in which `secrets` is no longer listed under `v1`: the core
group lists `namespaces` and the subresource `secrets/status` (Kind Secret), and the group
`example.io/v1` lists a cluster-scoped resource `secrets` of Kind Secret. -/
def driftSnapshot : List APIResourceList :=
  [{ GroupVersion := "v1",
     APIResources := [{ Name := "namespaces", Kind := "Namespace", Namespaced := false },
                      { Name := "secrets/status", Kind := "Secret", Namespaced := false }] },
   { GroupVersion := "example.io/v1",
     APIResources := [{ Name := "secrets", Kind := "Secret", Namespaced := false }] }]

/-- A cluster whose first discovery query answers `coreSnapshot` and whose second answers
`driftSnapshot`. -/
def driftKube : KubeClientI :=
  { Discovery := { GetAPIGroupResources := Except.ok { groups := coreSnapshot },
                   ServerResources := Except.ok driftSnapshot }
    SecretsGet := fun _ _ => Except.error notFoundErr }

/-- The manifest of the secret `token`, as JSON. -/
def tokenManifest : List Nat :=
  ascii "\x7b\"apiVersion\":\"v1\",\"kind\":\"Secret\",\"metadata\":\x7b\"name\":\"token\"\x7d\x7d"

/-- The decoded form of `tokenManifest`. -/
def tokenObject : JMap :=
  [("apiVersion", JVal.str "v1"), ("kind", JVal.str "Secret"),
   ("metadata", JVal.obj [("name", JVal.str "token")])]

/-- The secret `token` as stored in the namespace `default`. -/
def storedToken : Unstructured :=
  { Object := some [("apiVersion", JVal.str "v1"), ("kind", JVal.str "Secret"),
      ("metadata", JVal.obj [("name", JVal.str "token"), ("namespace", JVal.str "default")])] }

/-- A dynamic client that holds the secret `token` in the namespace `default` and nothing
else: every other get, the cluster-scoped get of `token` included, answers not-found. -/
def tokenClient : DynamicClient :=
  { Get := fun rsrc ns name =>
      if rsrc = secretsGVR ∧ ns = some "default" ∧ name = "token" then (some storedToken, none)
      else (none, some notFoundErr) }

/-- Libraries of the drifting cluster: the mapper is `findMapping`, the deserializer and
the JSON parser read `tokenManifest`, the dynamic client is `tokenClient`. -/
def driftLibs : Libs :=
  { Decode := fun data =>
      if data = tokenManifest then Except.ok { Group := "", Version := "v1", Kind := "Secret" }
      else Except.error parseErr
    RESTMapping := findMapping
    NewForConfig := fun _ => Except.ok tokenClient
    Unmarshal := fun data =>
      if data = tokenManifest then Except.ok (JVal.obj tokenObject)
      else Except.error parseErr
    RESTConfigFromKubeConfig := fun _ => Except.error parseErr }

/-! ## The rewrite, line by line, as the specification words it -/

/-- Indentation bytes: space and tab. -/
def isBlank (b : Nat) : Bool :=
  b = 32 || b = 9

/-- The rewrite of one line in the words of the specification: a line that is, after its
indentation, `client-certificate: tls.crt` becomes `client-certificate-data: ` followed by
the base64 of the certificate; a line that is `client-key: tls.key` becomes
`client-key-data: ` followed by the base64 of the key; any other line is kept. -/
def rewriteLine (tlsCrt tlsKey : List Nat) (line : List Nat) : List Nat :=
  if line.dropWhile isBlank = ascii "client-certificate: tls.crt" then
    line.takeWhile isBlank ++ (ascii "client-certificate-data: " ++ EncodeToString tlsCrt)
  else if line.dropWhile isBlank = ascii "client-key: tls.key" then
    line.takeWhile isBlank ++ (ascii "client-key-data: " ++ EncodeToString tlsKey)
  else line

/-- The rewrite of a template in the words of the specification: the template is cut at
its newlines (byte 10), every line is rewritten by `rewriteLine`, and the lines are joined
again. -/
def rewriteLines (secretkconfig tlsCrt tlsKey : List Nat) : List Nat :=
  [10].intercalate ((secretkconfig.splitOn 10).map (rewriteLine tlsCrt tlsKey))

/-- A template whose first line separates label and file name by two spaces and whose
second line names the file `tls.key.bak`. -/
def looseTemplate : List Nat :=
  ascii "    client-certificate:  tls.crt\n    client-key: tls.key.bak\n"

/-- A template whose certificate file is named `tls_crt`. -/
def otherFileTemplate : List Nat :=
  ascii "    client-certificate: tls_crt\n    client-key: tls.key\n"

/-! ## The rewrite, reference by reference -/

/-- A field reference at the head of the text: the label, one or more white-space bytes,
and the file name written out (stem, a literal `.`, extension). The result is the text
left after the reference. -/
def refAt (p : RefPattern) (s : List Nat) : Option (List Nat) :=
  match stripLit p.label s with
  | some (b :: s2) =>
    if isSpace b then stripLit (p.stem ++ 46 :: p.ext) (s2.dropWhile isSpace) else none
  | _ => none

/-- Scan of the in-place rewrite: `skip` counts the bytes of the current reference that
are still to be passed over. Outside a reference, a reference to the certificate file at
the head is replaced by `certData`, a reference to the key file by `keyData`, and any
other byte is copied. -/
def rewriteRefsAux (certData keyData : List Nat) : Nat → List Nat → List Nat
  | _, [] => []
  | skip + 1, _ :: t => rewriteRefsAux certData keyData skip t
  | 0, b :: t =>
    match refAt certPattern (b :: t) with
    | some rest =>
      certData ++ rewriteRefsAux certData keyData ((b :: t).length - rest.length - 1) t
    | none =>
      match refAt keyPattern (b :: t) with
      | some rest =>
        keyData ++ rewriteRefsAux certData keyData ((b :: t).length - rest.length - 1) t
      | none => b :: rewriteRefsAux certData keyData 0 t

/-- The template with every field reference replaced in place: each
`client-certificate:`, white space, `tls.crt` by `client-certificate-data: ` and the
base64 of the certificate, each `client-key:`, white space, `tls.key` by
`client-key-data: ` and the base64 of the key; every byte outside the references is
kept. -/
def rewriteRefs (secretkconfig tlsCrt tlsKey : List Nat) : List Nat :=
  rewriteRefsAux (ascii "client-certificate-data: " ++ EncodeToString tlsCrt)
    (ascii "client-key-data: " ++ EncodeToString tlsKey) 0 secretkconfig

/-- The beginnings of the label `client-key:` that base64 text, which has letters but no
hyphen, can end with. -/
def keyLabelHeads : List (List Nat) :=
  [ascii "c", ascii "cl", ascii "cli", ascii "clie", ascii "clien", ascii "client"]

/-- A template with CRLF line ends, a reference written with two spaces, a reference inside
a longer file name, and a line that has the key label without being a reference. -/
def mixedTemplate : List Nat :=
  ascii ("users:\r\n- name: hub\r\n  user:\r\n    client-certificate:  tls.crt\r\n" ++
    "    client-key: tls.key.bak\r\n    client-key: other.key\r\n")

/-- A template in which the reference to `tls.crt` is directly followed by `-key: tls.key`. -/
def joinedTemplate : List Nat :=
  ascii "client-certificate: tls.crt-key: tls.key"

/-- Certificate bytes whose base64 text is `AAclient`. -/
def clientBytes : List Nat :=
  [0, 7, 37, 137, 233, 237]

/-! ## Results: joinStr -/

/-- C9: joining an empty group, the separator and a version gives exactly the version
(no leading separator); joining a non-empty group `g` gives `g ++ "/" ++ v`. -/
theorem joinStr_group_version (v : String) :
    joinStr ["", "/", v] = some v ∧
    ∀ g : String, g ≠ "" → joinStr [g, "/", v] = some (g ++ "/" ++ v) := by
  refine ⟨by simp [joinStr], ?_⟩
  intro g hg
  simp [joinStr, hg]

/-- C9 at the core group and at the group `apps`. -/
theorem joinStr_group_version_witness :
    joinStr ["", "/", "v1"] = some "v1" ∧ joinStr ["apps", "/", "v1"] = some ("apps" ++ "/" ++ "v1") :=
  ⟨(joinStr_group_version "v1").1, (joinStr_group_version "v1").2 "apps" (by decide)⟩

/-! ## Results: getTheObject -/

/-- C2: when the get fails with a not-found error `e`, the cluster-scoped path returns no
object and a nil error, and the namespaced path returns the error `e` itself. -/
theorem getTheObject_notFound_asymmetry (nspace name : String) (rsrc : GroupVersionResource)
    (unstruct : Unstructured) (dclient : DynamicClient) (e : Error)
    (he : IsNotFound e = true) :
    (∀ inst, dclient.Get rsrc none name = (inst, some e) →
      (getTheObject false nspace name rsrc unstruct dclient).1 = (none, none)) ∧
    (∀ inst, dclient.Get rsrc (some nspace) name = (inst, some e) →
      (getTheObject true nspace name rsrc unstruct dclient).1.2 = some e) := by
  constructor
  · intro inst h
    simp [getTheObject, h, he]
  · intro inst h
    simp [getTheObject, h, he]

/-- C2 on the sample cluster, where every get answers not-found. -/
theorem getTheObject_notFound_asymmetry_witness :
    (getTheObject false "default" "absent" namespacesGVR Unstructured.zero absentClient).1
      = (none, none) ∧
    (getTheObject true "default" "absent" secretsGVR Unstructured.zero absentClient).1.2
      = some notFoundErr :=
  ⟨(getTheObject_notFound_asymmetry "default" "absent" namespacesGVR Unstructured.zero
      absentClient notFoundErr (by decide)).1 none rfl,
   (getTheObject_notFound_asymmetry "default" "absent" secretsGVR Unstructured.zero
      absentClient notFoundErr (by decide)).2 none rfl⟩

/-- A get failure that is not a not-found error is dropped by `getTheObject`: in either
scope the caller receives no object and a nil error. -/
theorem getTheObject_drops_other_failure (namespaced : Bool) (nspace name : String)
    (rsrc : GroupVersionResource) (unstruct : Unstructured) (dclient : DynamicClient)
    (inst : Option Unstructured) (e : Error) (he : IsNotFound e = false)
    (hget : dclient.Get rsrc (if namespaced then some nspace else none) name = (inst, some e)) :
    (getTheObject namespaced nspace name rsrc unstruct dclient).1 = (none, none) := by
  cases namespaced
  · simp only [Bool.false_eq_true, if_false] at hget
    simp [getTheObject, hget]
  · simp only [if_true] at hget
    simp [getTheObject, hget, he]

/-- C1, the code at a failing input: a get refused with a permission error, which is not a
not-found error, comes back from `getTheObject` as no object and a nil error, in the
cluster-scoped path and in the namespaced path alike. -/
theorem getTheObject_forbidden_returns_nil :
    IsNotFound forbiddenErr = false ∧
    forbiddenClient.Get namespacesGVR none "absent" = (none, some forbiddenErr) ∧
    (getTheObject false "default" "absent" namespacesGVR Unstructured.zero forbiddenClient).1
      = (none, none) ∧
    forbiddenClient.Get secretsGVR (some "default") "absent" = (none, some forbiddenErr) ∧
    (getTheObject true "default" "absent" secretsGVR Unstructured.zero forbiddenClient).1
      = (none, none) :=
  ⟨by decide, rfl, rfl, rfl, rfl⟩

/-! ## Results: LoadHubConfig on a populated cache -/

/-- C6: with a hub credential already cached, `LoadHubConfig` returns exactly the cached
configuration with a nil error, sends no request (no secret fetch), and leaves the package
state unchanged; a second call, with any arguments, returns the same. -/
theorem LoadHubConfig_cached (L : Libs) (st : ProcessState) (nspace secretname : String)
    (cfg : RestConfig) (h : st.HubConfig = some cfg) :
    (LoadHubConfig L st nspace secretname).out = Outcome.ret (some cfg, none) ∧
    (LoadHubConfig L st nspace secretname).calls = [] ∧
    (LoadHubConfig L st nspace secretname).state = st ∧
    ∀ nspace2 secretname2 : String,
      (LoadHubConfig L (LoadHubConfig L st nspace secretname).state nspace2 secretname2).out
        = (LoadHubConfig L st nspace secretname).out ∧
      (LoadHubConfig L (LoadHubConfig L st nspace secretname).state nspace2 secretname2).calls
        = [] := by
  have h1 : ∀ a b : String, LoadHubConfig L st a b =
      { out := Outcome.ret (some cfg, none), state := st, calls := [] } := by
    intro a b
    simp [LoadHubConfig, h]
  refine ⟨by rw [h1], by rw [h1], by rw [h1], ?_⟩
  intro a b
  simp [h1]

/-- C6 on the sample state with `sampleHub` cached. -/
theorem LoadHubConfig_cached_witness :
    (LoadHubConfig (sampleLibs absentClient) { sampleState with HubConfig := some sampleHub }
      "open-cluster-management-agent-addon" "hub-kubeconfig").out
      = Outcome.ret (some sampleHub, none) :=
  (LoadHubConfig_cached (sampleLibs absentClient) { sampleState with HubConfig := some sampleHub }
    "open-cluster-management-agent-addon" "hub-kubeconfig" sampleHub rfl).1

/-! ## Results: GetGenericObject -/

/-- The run of `GetGenericObject` once every step before the get has succeeded: the get is
sent with the scope computed by the loop, and a nil object pointer handed back by
`getTheObject` is dereferenced. -/
theorem GetGenericObject_reaches_get (L : Libs) (st : ProcessState) (data : List Nat)
    (nspace : String) (kc : KubeClientI) (apigroups : APIGroupResources)
    (gvk : GroupVersionKind) (mapping : RESTMapping) (cfg : RestConfig)
    (dclient : DynamicClient) (apiresourcelist : List APIResourceList) (object : JMap)
    (name : String)
    (hk : st.KubeClient = some kc)
    (hd1 : kc.Discovery.GetAPIGroupResources = Except.ok apigroups)
    (hdec : L.Decode data = Except.ok gvk)
    (hmap : L.RESTMapping apigroups gvk.GroupKind gvk.Version = Except.ok mapping)
    (hcfg : st.KubeConfig = some cfg)
    (hnew : L.NewForConfig
      { cfg with GroupVersion := some { Group := mapping.GroupVersionKind.Group,
                                        Version := mapping.GroupVersionKind.Version } }
      = Except.ok dclient)
    (hd2 : kc.Discovery.ServerResources = Except.ok apiresourcelist)
    (hjson : L.Unmarshal data = Except.ok (JVal.obj object))
    (hname : objectName object = Except.ok name) :
    (GetGenericObject L st data nspace).calls =
      [APICall.discoveryGroups, APICall.serverResources] ++
        (getTheObject (scanGroups mapping true apiresourcelist) nspace name mapping.Resource
          { Object := some object } dclient).2 ∧
    (GetGenericObject L st data nspace).out =
      (match (getTheObject (scanGroups mapping true apiresourcelist) nspace name
          mapping.Resource { Object := some object } dclient).1.1 with
       | some inst => Outcome.ret (inst,
          (getTheObject (scanGroups mapping true apiresourcelist) nspace name
            mapping.Resource { Object := some object } dclient).1.2)
       | none => Outcome.panic "nil pointer dereference") := by
  simp only [GetGenericObject, hk, hd1, hdec, hmap, hcfg, hnew, hd2, hjson, hname]
  split <;> simp_all

/-- The request sent by `getTheObject`: a get without namespace when the scope is
cluster-wide, a get in the supplied namespace otherwise. -/
theorem getTheObject_calls (namespaced : Bool) (nspace name : String)
    (rsrc : GroupVersionResource) (unstruct : Unstructured) (dclient : DynamicClient) :
    (getTheObject namespaced nspace name rsrc unstruct dclient).2 =
      [APICall.get (if namespaced then some nspace else none) name rsrc] := by
  cases namespaced
  · rcases h : dclient.Get rsrc none name with ⟨inst, _ | e⟩
    · simp [getTheObject, h]
    · by_cases hn : IsNotFound e = true <;> simp [getTheObject, h, hn]
  · rcases h : dclient.Get rsrc (some nspace) name with ⟨inst, _ | e⟩
    · simp [getTheObject, h]
    · by_cases hn : IsNotFound e = true <;> simp [getTheObject, h, hn]

/-- C10: when the discovery query succeeds and the deserializer fails on the manifest,
`GetGenericObject` returns to its caller the empty object together with that decode error;
it neither panics nor exits, the only request it has sent is the discovery query (no get),
and what it returns is never a result with a nil error. -/
theorem GetGenericObject_decode_error (L : Libs) (st : ProcessState) (data : List Nat)
    (nspace : String) (kc : KubeClientI) (apigroups : APIGroupResources) (err : Error)
    (hk : st.KubeClient = some kc)
    (hd : kc.Discovery.GetAPIGroupResources = Except.ok apigroups)
    (he : L.Decode data = Except.error err) :
    (GetGenericObject L st data nspace).out = Outcome.ret (Unstructured.zero, some err) ∧
    (GetGenericObject L st data nspace).out.isPanic = false ∧
    (GetGenericObject L st data nspace).out.isFatal = false ∧
    (GetGenericObject L st data nspace).calls = [APICall.discoveryGroups] ∧
    (∀ ns name rsrc, APICall.get ns name rsrc ∉ (GetGenericObject L st data nspace).calls) ∧
    (∀ u, (GetGenericObject L st data nspace).out ≠ Outcome.ret (u, none)) := by
  have h : GetGenericObject L st data nspace =
      { out := Outcome.ret (Unstructured.zero, some err), state := st,
        calls := [APICall.discoveryGroups] } := by
    simp [GetGenericObject, hk, hd, he]
  rw [h]
  simp [Outcome.isPanic, Outcome.isFatal]

/-- C10 on the sample cluster, for a manifest cut off after its first field name. -/
theorem GetGenericObject_decode_error_witness :
    (GetGenericObject (sampleLibs absentClient) sampleState (ascii "\x7b\"apiVersion\"")
      "default").out = Outcome.ret (Unstructured.zero, some parseErr) :=
  (GetGenericObject_decode_error (sampleLibs absentClient) sampleState
    (ascii "\x7b\"apiVersion\"") "default" sampleKube { groups := coreSnapshot } parseErr
    rfl rfl rfl).1

/-- C3, the code at a failing input: for the JSON manifest of a namespace that the cluster
does not have, with discovery listing `namespaces` as cluster-scoped, the scope is resolved
as cluster-scoped, `getTheObject` hands back a nil object and a nil error, and
`GetGenericObject` panics on the nil pointer instead of returning. -/
theorem GetGenericObject_cluster_notFound_panics :
    scanGroups namespaceMapping true coreSnapshot = false ∧
    (getTheObject false "default" "absent" namespacesGVR { Object := some namespaceObject }
      absentClient).1 = (none, none) ∧
    (GetGenericObject (sampleLibs absentClient) sampleState namespaceManifest "default").out
      = Outcome.panic "nil pointer dereference" ∧
    (GetGenericObject (sampleLibs absentClient) sampleState namespaceManifest "default").calls
      = [APICall.discoveryGroups, APICall.serverResources,
         APICall.get none "absent" namespacesGVR] :=
  ⟨by decide, rfl, by rfl, by decide⟩

/-! ## Results: scope resolution -/

/-- Resources that do not match on name and Kind leave the scope as it was. -/
theorem scanResources_no_match (mapping : RESTMapping) (rs : List APIResource) (ns : Bool)
    (h : ∀ r ∈ rs, ¬ (r.Name = mapping.Resource.Resource ∧
      r.Kind = mapping.GroupVersionKind.Kind)) :
    scanResources mapping ns rs = ns := by
  induction rs generalizing ns with
  | nil => rfl
  | cons r rs ih =>
    have hr := h r (List.mem_cons_self r rs)
    have hrs : ∀ r' ∈ rs, ¬ (r'.Name = mapping.Resource.Resource ∧
        r'.Kind = mapping.GroupVersionKind.Kind) :=
      fun r' hr' => h r' (List.mem_cons_of_mem r hr')
    have ih' := ih ns hrs
    simp only [scanResources] at ih' ⊢
    simp only [List.foldl_cons, if_neg hr]
    exact ih'

/-- Groups without a matching entry leave the scope as it was. -/
theorem scanGroups_no_match (mapping : RESTMapping) (gs : List APIResourceList) (ns : Bool)
    (h : ∀ g ∈ gs, ∀ r ∈ g.APIResources,
      ¬ (some g.GroupVersion =
          joinStr [mapping.GroupVersionKind.Group, "/", mapping.GroupVersionKind.Version] ∧
        r.Name = mapping.Resource.Resource ∧ r.Kind = mapping.GroupVersionKind.Kind)) :
    scanGroups mapping ns gs = ns := by
  induction gs generalizing ns with
  | nil => rfl
  | cons g gs ih =>
    have hgs : ∀ g' ∈ gs, ∀ r ∈ g'.APIResources,
        ¬ (some g'.GroupVersion =
            joinStr [mapping.GroupVersionKind.Group, "/", mapping.GroupVersionKind.Version] ∧
          r.Name = mapping.Resource.Resource ∧ r.Kind = mapping.GroupVersionKind.Kind) :=
      fun g' hg' => h g' (List.mem_cons_of_mem g hg')
    have ih' := ih ns hgs
    simp only [scanGroups] at ih' ⊢
    simp only [List.foldl_cons]
    by_cases hg : some g.GroupVersion =
        joinStr [mapping.GroupVersionKind.Group, "/", mapping.GroupVersionKind.Version]
    · rw [if_pos hg, scanResources_no_match mapping g.APIResources ns
        (fun r hr hm => h g (List.mem_cons_self g gs) r hr ⟨hg, hm⟩)]
      exact ih'
    · rw [if_neg hg]
      exact ih'

/-- The scope loop runs over a concatenation of snapshots from left to right. -/
theorem scanGroups_append (mapping : RESTMapping) (ns : Bool) (xs ys : List APIResourceList) :
    scanGroups mapping ns (xs ++ ys) = scanGroups mapping (scanGroups mapping ns xs) ys := by
  simp [scanGroups, List.foldl_append]

/-- The inner loop runs over a concatenation of resources from left to right. -/
theorem scanResources_append (mapping : RESTMapping) (ns : Bool) (xs ys : List APIResource) :
    scanResources mapping ns (xs ++ ys) =
      scanResources mapping (scanResources mapping ns xs) ys := by
  simp [scanResources, List.foldl_append]

/-- What the namespaced path of `getTheObject` returns, in terms of the answer of the
namespaced get. -/
theorem getTheObject_namespaced (nspace name : String) (rsrc : GroupVersionResource)
    (unstruct : Unstructured) (dclient : DynamicClient) :
    (getTheObject true nspace name rsrc unstruct dclient).1 =
      (match dclient.Get rsrc (some nspace) name with
       | (inst, none) => (inst, none)
       | (inst, some e) => if IsNotFound e then (inst, some e) else (none, none)) := by
  rcases h : dclient.Get rsrc (some nspace) name with ⟨inst, _ | e⟩
  · simp [getTheObject, h]
  · by_cases hn : IsNotFound e = true <;> simp [getTheObject, h, hn]

/-- C8: when no entry of the discovery snapshot matches on group/version string, resource
name and Kind together (the empty snapshot included), the scope decision is
`namespaced = true`, and the fetch of `GetGenericObject` goes through the namespaced path
with the supplied namespace: the one get it sends is the get in that namespace, and what it
hands to its caller is decided by the answer of that get. -/
theorem scope_default_namespaced (mapping : RESTMapping)
    (apiresourcelist : List APIResourceList)
    (hno : ∀ g ∈ apiresourcelist, ∀ r ∈ g.APIResources,
      ¬ (some g.GroupVersion =
          joinStr [mapping.GroupVersionKind.Group, "/", mapping.GroupVersionKind.Version] ∧
        r.Name = mapping.Resource.Resource ∧ r.Kind = mapping.GroupVersionKind.Kind)) :
    scanGroups mapping true apiresourcelist = true ∧
    ∀ (L : Libs) (st : ProcessState) (data : List Nat) (nspace : String) (kc : KubeClientI)
      (apigroups : APIGroupResources) (gvk : GroupVersionKind) (cfg : RestConfig)
      (dclient : DynamicClient) (object : JMap) (name : String),
      st.KubeClient = some kc →
      kc.Discovery.GetAPIGroupResources = Except.ok apigroups →
      L.Decode data = Except.ok gvk →
      L.RESTMapping apigroups gvk.GroupKind gvk.Version = Except.ok mapping →
      st.KubeConfig = some cfg →
      L.NewForConfig
        { cfg with GroupVersion := some { Group := mapping.GroupVersionKind.Group,
                                          Version := mapping.GroupVersionKind.Version } }
        = Except.ok dclient →
      kc.Discovery.ServerResources = Except.ok apiresourcelist →
      L.Unmarshal data = Except.ok (JVal.obj object) →
      objectName object = Except.ok name →
      (GetGenericObject L st data nspace).calls =
        [APICall.discoveryGroups, APICall.serverResources,
         APICall.get (some nspace) name mapping.Resource] ∧
      (GetGenericObject L st data nspace).out =
        (match dclient.Get mapping.Resource (some nspace) name with
         | (some inst, none) => Outcome.ret (inst, none)
         | (some inst, some e) =>
           if IsNotFound e then Outcome.ret (inst, some e)
           else Outcome.panic "nil pointer dereference"
         | (none, _) => Outcome.panic "nil pointer dereference") := by
  have hs := scanGroups_no_match mapping apiresourcelist true hno
  refine ⟨hs, ?_⟩
  intro L st data nspace kc apigroups gvk cfg dclient object name hk hd1 hdec hmap hcfg hnew
    hd2 hjson hname
  have hrun := GetGenericObject_reaches_get L st data nspace kc apigroups gvk mapping cfg
    dclient apiresourcelist object name hk hd1 hdec hmap hcfg hnew hd2 hjson hname
  constructor
  · rw [hrun.1, getTheObject_calls, hs]
    simp
  · rw [hrun.2, hs, getTheObject_namespaced]
    rcases dclient.Get mapping.Resource (some nspace) name with ⟨_ | inst, _ | e⟩
    · rfl
    · by_cases hn : IsNotFound e = true <;> simp [hn]
    · rfl
    · by_cases hn : IsNotFound e = true <;> simp [hn]

/-- C8 on a cluster whose second discovery answer no longer lists `secrets` under `v1`
(it lists `secrets/status` there and a cluster-scoped `secrets` in another group): the
secret `token` is fetched in the namespace `default`, where the client holds it, and is
returned; a cluster-scoped get would have answered not-found. -/
theorem scope_default_namespaced_witness :
    scanGroups secretMapping true driftSnapshot = true ∧
    (GetGenericObject driftLibs { sampleState with KubeClient := some driftKube }
      tokenManifest "default").calls =
      [APICall.discoveryGroups, APICall.serverResources,
       APICall.get (some "default") "token" secretMapping.Resource] ∧
    (GetGenericObject driftLibs { sampleState with KubeClient := some driftKube }
      tokenManifest "default").out = Outcome.ret (storedToken, none) ∧
    tokenClient.Get secretMapping.Resource none "token" = (none, some notFoundErr) :=
  ⟨(scope_default_namespaced secretMapping driftSnapshot (by decide)).1,
   ((scope_default_namespaced secretMapping driftSnapshot (by decide)).2 driftLibs
     { sampleState with KubeClient := some driftKube } tokenManifest "default" driftKube
     { groups := coreSnapshot } { Group := "", Version := "v1", Kind := "Secret" }
     { Host := "https://cluster.local", GroupVersion := none } tokenClient tokenObject
     "token" rfl rfl rfl rfl rfl rfl rfl rfl rfl).1,
   ((scope_default_namespaced secretMapping driftSnapshot (by decide)).2 driftLibs
     { sampleState with KubeClient := some driftKube } tokenManifest "default" driftKube
     { groups := coreSnapshot } { Group := "", Version := "v1", Kind := "Secret" }
     { Host := "https://cluster.local", GroupVersion := none } tokenClient tokenObject
     "token" rfl rfl rfl rfl rfl rfl rfl rfl rfl).2.trans rfl,
   rfl⟩

/-- C7: when exactly one entry of the discovery snapshot matches (the entry `e` of the
group `g`, whose group/version string is the joined group/version of the mapping and whose
name and Kind are those of the mapping, while no other entry of `g` or of another group
matches), the scope decision is the namespaced flag of `e`. With a snapshot of the core
group listing `secrets` (namespaced) and `namespaces` (not namespaced), the decision is
true for Secret and false for Namespace. -/
theorem scope_unique_entry (mapping : RESTMapping) (before after : List APIResourceList)
    (g : APIResourceList) (rbefore rafter : List APIResource) (e : APIResource)
    (hg : some g.GroupVersion =
      joinStr [mapping.GroupVersionKind.Group, "/", mapping.GroupVersionKind.Version])
    (hres : g.APIResources = rbefore ++ e :: rafter)
    (he : e.Name = mapping.Resource.Resource ∧ e.Kind = mapping.GroupVersionKind.Kind)
    (hr : ∀ r ∈ rbefore ++ rafter, ¬ (r.Name = mapping.Resource.Resource ∧
      r.Kind = mapping.GroupVersionKind.Kind))
    (hothers : ∀ g' ∈ before ++ after, ∀ r ∈ g'.APIResources,
      ¬ (some g'.GroupVersion =
          joinStr [mapping.GroupVersionKind.Group, "/", mapping.GroupVersionKind.Version] ∧
        r.Name = mapping.Resource.Resource ∧ r.Kind = mapping.GroupVersionKind.Kind)) :
    scanGroups mapping true (before ++ g :: after) = e.Namespaced ∧
    (∀ (L : Libs) (st : ProcessState) (data : List Nat) (nspace : String) (kc : KubeClientI)
      (apigroups : APIGroupResources) (gvk : GroupVersionKind) (cfg : RestConfig)
      (dclient : DynamicClient) (object : JMap) (name : String),
      st.KubeClient = some kc →
      kc.Discovery.GetAPIGroupResources = Except.ok apigroups →
      L.Decode data = Except.ok gvk →
      L.RESTMapping apigroups gvk.GroupKind gvk.Version = Except.ok mapping →
      st.KubeConfig = some cfg →
      L.NewForConfig
        { cfg with GroupVersion := some { Group := mapping.GroupVersionKind.Group,
                                          Version := mapping.GroupVersionKind.Version } }
        = Except.ok dclient →
      kc.Discovery.ServerResources = Except.ok (before ++ g :: after) →
      L.Unmarshal data = Except.ok (JVal.obj object) →
      objectName object = Except.ok name →
      (GetGenericObject L st data nspace).calls =
        [APICall.discoveryGroups, APICall.serverResources,
         APICall.get (if e.Namespaced then some nspace else none) name mapping.Resource]) ∧
    scanGroups secretMapping true coreSnapshot = true ∧
    scanGroups namespaceMapping true coreSnapshot = false := by
  suffices hmain : scanGroups mapping true (before ++ g :: after) = e.Namespaced by
    refine ⟨hmain, ?_, by decide, by decide⟩
    intro L st data nspace kc apigroups gvk cfg dclient object name hk hd1 hdec hmap hcfg hnew
      hd2 hjson hname
    rw [(GetGenericObject_reaches_get L st data nspace kc apigroups gvk mapping cfg dclient
      (before ++ g :: after) object name hk hd1 hdec hmap hcfg hnew hd2 hjson hname).1,
      getTheObject_calls, hmain]
    simp
  have hb : scanGroups mapping true before = true :=
    scanGroups_no_match mapping before true
      (fun g' hg' => hothers g' (List.mem_append_left after hg'))
  have ha : ∀ ns, scanGroups mapping ns after = ns := fun ns =>
    scanGroups_no_match mapping after ns
      (fun g' hg' => hothers g' (List.mem_append_right before hg'))
  have hrb : scanResources mapping true rbefore = true :=
    scanResources_no_match mapping rbefore true
      (fun r hr' => hr r (List.mem_append_left rafter hr'))
  have hra : ∀ ns, scanResources mapping ns rafter = ns := fun ns =>
    scanResources_no_match mapping rafter ns
      (fun r hr' => hr r (List.mem_append_right rbefore hr'))
  have hgrp : scanGroups mapping true [g] = e.Namespaced := by
    have h1 : scanGroups mapping true [g] = scanResources mapping true g.APIResources := by
      simp [scanGroups, hg]
    have h2 : scanResources mapping true (e :: rafter) = e.Namespaced := by
      have h3 : scanResources mapping true (e :: rafter) =
          scanResources mapping e.Namespaced rafter := by
        simp [scanResources, he]
      rw [h3, hra]
    rw [h1, hres, scanResources_append, hrb, h2]
  have hsplit : before ++ g :: after = before ++ ([g] ++ after) := by simp
  rw [hsplit, scanGroups_append, scanGroups_append, hb, hgrp, ha]

/-- C7 on the sample snapshot: the entry `namespaces` is the only match for Namespace. -/
theorem scope_unique_entry_witness :
    scanGroups namespaceMapping true
      ([] ++ { GroupVersion := "v1",
               APIResources := [{ Name := "secrets", Kind := "Secret", Namespaced := true },
                 { Name := "namespaces", Kind := "Namespace", Namespaced := false }] } :: [])
      = false :=
  (scope_unique_entry namespaceMapping [] []
    { GroupVersion := "v1",
      APIResources := [{ Name := "secrets", Kind := "Secret", Namespaced := true },
        { Name := "namespaces", Kind := "Namespace", Namespaced := false }] }
    [{ Name := "secrets", Kind := "Secret", Namespaced := true }] []
    { Name := "namespaces", Kind := "Namespace", Namespaced := false }
    (by decide) rfl (by decide) (by decide) (by simp)).1

/-! ## Results: which failures end the process -/

/-- C5 as stated fails: on the sample cluster both discovery calls succeed and the
deserializer accepts the YAML manifest, yet the JSON re-parse of the same bytes fails and
the run ends in `klog.Fatal` instead of returning the error. -/
theorem GetGenericObject_reparse_failure_is_fatal :
    sampleKube.Discovery.GetAPIGroupResources = Except.ok { groups := coreSnapshot } ∧
    sampleKube.Discovery.ServerResources = Except.ok coreSnapshot ∧
    (sampleLibs absentClient).Decode yamlManifest
      = Except.ok { Group := "", Version := "v1", Kind := "Namespace" } ∧
    (sampleLibs absentClient).Unmarshal yamlManifest = Except.error parseErr ∧
    (GetGenericObject (sampleLibs absentClient) sampleState yamlManifest "default").out
      = Outcome.fatal parseErr ∧
    (GetGenericObject (sampleLibs absentClient) sampleState yamlManifest "default").out.isFatal
      = true :=
  ⟨rfl, rfl, rfl, rfl, rfl, by decide⟩

/-- C5 amended: when both discovery calls succeed, a decode failure and a mapping failure
are each returned to the caller as that error, and the run ends in `klog.Fatal` exactly
when, after a successful decode and mapping, the construction of the dynamic client fails
or the JSON re-parse of the manifest fails. -/
theorem GetGenericObject_fatal_exits (L : Libs) (st : ProcessState) (data : List Nat)
    (nspace : String) (kc : KubeClientI) (apigroups : APIGroupResources)
    (apiresourcelist : List APIResourceList)
    (hk : st.KubeClient = some kc)
    (hd1 : kc.Discovery.GetAPIGroupResources = Except.ok apigroups)
    (hd2 : kc.Discovery.ServerResources = Except.ok apiresourcelist) :
    (∀ err, L.Decode data = Except.error err →
      (GetGenericObject L st data nspace).out = Outcome.ret (Unstructured.zero, some err)) ∧
    (∀ gvk err, L.Decode data = Except.ok gvk →
      L.RESTMapping apigroups gvk.GroupKind gvk.Version = Except.error err →
      (GetGenericObject L st data nspace).out = Outcome.ret (Unstructured.zero, some err)) ∧
    ((GetGenericObject L st data nspace).out.isFatal = true ↔
      ∃ gvk mapping cfg, L.Decode data = Except.ok gvk ∧
        L.RESTMapping apigroups gvk.GroupKind gvk.Version = Except.ok mapping ∧
        st.KubeConfig = some cfg ∧
        ((∃ e, L.NewForConfig
            { cfg with GroupVersion := some { Group := mapping.GroupVersionKind.Group,
                                              Version := mapping.GroupVersionKind.Version } }
            = Except.error e) ∨
         (∃ dclient e, L.NewForConfig
            { cfg with GroupVersion := some { Group := mapping.GroupVersionKind.Group,
                                              Version := mapping.GroupVersionKind.Version } }
            = Except.ok dclient ∧ L.Unmarshal data = Except.error e))) := by
  refine ⟨?_, ?_, ?_⟩
  · intro err he
    simp [GetGenericObject, hk, hd1, he]
  · intro gvk err hdec hmap
    simp [GetGenericObject, hk, hd1, hdec, hmap]
  · rcases hdec : L.Decode data with err | gvk
    · simp [GetGenericObject, hk, hd1, hdec, Outcome.isFatal]
    rcases hmap : L.RESTMapping apigroups gvk.GroupKind gvk.Version with err | mapping
    · simp [GetGenericObject, hk, hd1, hdec, hmap, Outcome.isFatal]
    rcases hcfg : st.KubeConfig with _ | cfg
    · simp [GetGenericObject, hk, hd1, hdec, hmap, hcfg, Outcome.isFatal]
    rcases hnew : L.NewForConfig
        { cfg with GroupVersion := some { Group := mapping.GroupVersionKind.Group,
                                          Version := mapping.GroupVersionKind.Version } }
      with e | dclient
    · simp [GetGenericObject, hk, hd1, hdec, hmap, hcfg, hnew, Outcome.isFatal]
    rcases hjson : L.Unmarshal data with e | blob
    · simp [GetGenericObject, hk, hd1, hd2, hdec, hmap, hcfg, hnew, hjson, Outcome.isFatal]
    cases blob with
    | obj object =>
      rcases hname : objectName object with msg | name
      · simp [GetGenericObject, hk, hd1, hd2, hdec, hmap, hcfg, hnew, hjson, hname,
          Outcome.isFatal]
      · simp only [GetGenericObject, hk, hd1, hd2, hdec, hmap, hcfg, hnew, hjson, hname]
        split <;> simp [Outcome.isFatal, hmap, hnew]
    | _ => simp [GetGenericObject, hk, hd1, hd2, hdec, hmap, hcfg, hnew, hjson, Outcome.isFatal]

/-- C5 amended, on the sample cluster: the deserializer fails on an empty manifest and the
error is returned to the caller. -/
theorem GetGenericObject_fatal_exits_witness :
    (GetGenericObject (sampleLibs absentClient) sampleState [] "default").out
      = Outcome.ret (Unstructured.zero, some parseErr) :=
  (GetGenericObject_fatal_exits (sampleLibs absentClient) sampleState [] "default" sampleKube
    { groups := coreSnapshot } coreSnapshot rfl rfl rfl).1 parseErr rfl

/-! ## Results: the kubeconfig rewrite -/

/-- A literal that was stripped stood at the head of the text. -/
theorem stripLit_eq_some (lit s r : List Nat) (h : stripLit lit s = some r) : s = lit ++ r := by
  induction lit generalizing s with
  | nil =>
    simp only [stripLit, Option.some.injEq] at h
    simp [h]
  | cons a lit ih =>
    cases s with
    | nil => simp [stripLit] at h
    | cons b s =>
      simp only [stripLit] at h
      by_cases hab : a = b
      · rw [if_pos hab] at h
        rw [hab, ih s h]
        rfl
      · rw [if_neg hab] at h
        cases h

/-- A literal at the head of the text is stripped. -/
theorem stripLit_append (lit r : List Nat) : stripLit lit (lit ++ r) = some r := by
  induction lit with
  | nil => rfl
  | cons a lit ih => simp [stripLit, ih]

/-- A match starts with the label of the pattern. -/
theorem matchAt_label (p : RefPattern) (s r : List Nat) (h : matchAt p s = some r) :
    p.label <+: s := by
  unfold matchAt at h
  rcases hl : stripLit p.label s with _ | s1
  · simp [hl] at h
  · exact ⟨s1, (stripLit_eq_some p.label s s1 hl).symm⟩

/-- A match is a non-empty piece at the head of the text, and what is left follows it. -/
theorem matchAt_split (p : RefPattern) (s r : List Nat) (h : matchAt p s = some r) :
    ∃ m, s = m ++ r ∧ 0 < m.length := by
  unfold matchAt at h
  rcases hl : stripLit p.label s with _ | s1
  · simp [hl] at h
  rw [hl] at h
  have hs := stripLit_eq_some p.label s s1 hl
  cases s1 with
  | nil => simp at h
  | cons b s2 =>
    simp only at h
    by_cases hb : isSpace b = true
    · rw [if_pos hb] at h
      rcases hst : stripLit p.stem (s2.dropWhile isSpace) with _ | s3
      · simp [hst] at h
      rw [hst] at h
      cases s3 with
      | nil => simp at h
      | cons c s4 =>
        simp only at h
        by_cases hc : c = 10
        · simp [hc] at h
        · rw [if_neg hc] at h
          have h1 := stripLit_eq_some p.ext _ r h
          have h2 := stripLit_eq_some p.stem _ _ hst
          have e1 : r <:+ (c :: s4).drop (runeWidth (c :: s4)) := ⟨p.ext, h1.symm⟩
          have e2 : (c :: s4).drop (runeWidth (c :: s4)) <:+ c :: s4 := List.drop_suffix _ _
          have e3 : c :: s4 <:+ s2.dropWhile isSpace := ⟨p.stem, h2.symm⟩
          have e4 : s2.dropWhile isSpace <:+ s2 := List.dropWhile_suffix _
          obtain ⟨m, hm⟩ := ((e1.trans e2).trans e3).trans e4
          refine ⟨p.label ++ b :: m, ?_, by simp⟩
          rw [hs, ← hm]
          simp
    · rw [if_neg hb] at h
      cases h

/-- Passing over `skip` bytes is dropping them. -/
theorem replaceAllAux_skip (p : RefPattern) (repl : List Nat) (skip : Nat) (t : List Nat) :
    replaceAllAux p repl skip t = replaceAllAux p repl 0 (t.drop skip) := by
  induction t generalizing skip with
  | nil => simp [replaceAllAux]
  | cons b t ih =>
    cases skip with
    | zero => rfl
    | succ k =>
      simp only [replaceAllAux, List.drop_succ_cons]
      exact ih k

/-- One step of the scan outside a match. -/
theorem replaceAllAux_zero_cons (p : RefPattern) (repl : List Nat) (b : Nat) (t : List Nat) :
    replaceAllAux p repl 0 (b :: t) =
      (match matchAt p (b :: t) with
       | some rest => repl ++ replaceAllAux p repl ((b :: t).length - rest.length - 1) t
       | none => b :: replaceAllAux p repl 0 t) := by
  simp only [replaceAllAux]

/-- At a match the replacement is written and the scan goes on after the match. -/
theorem replaceAllAux_match (p : RefPattern) (repl s r : List Nat)
    (h : matchAt p s = some r) :
    replaceAllAux p repl 0 s = repl ++ replaceAllAux p repl 0 r := by
  obtain ⟨m, hm, hlen⟩ := matchAt_split p s r h
  cases s with
  | nil =>
    cases m with
    | nil => simp at hlen
    | cons b m => simp at hm
  | cons b t =>
    rw [replaceAllAux_zero_cons, h]
    simp only
    rw [replaceAllAux_skip]
    cases m with
    | nil => simp at hlen
    | cons b' m =>
      simp only [List.cons_append, List.cons.injEq] at hm
      have ht : t = m ++ r := hm.2
      have hl : (b :: t).length - r.length - 1 = m.length := by
        rw [ht]
        simp
        omega
      rw [hl, ht, List.drop_left]

/-- Where nothing matches the head byte is copied. -/
theorem replaceAllAux_no_match (p : RefPattern) (repl : List Nat) (b : Nat) (t : List Nat)
    (h : matchAt p (b :: t) = none) :
    replaceAllAux p repl 0 (b :: t) = b :: replaceAllAux p repl 0 t := by
  simp [replaceAllAux, h]

/-- A piece of text none of whose positions starts a match is copied as it is. -/
theorem replaceAllAux_copy (p : RefPattern) (repl : List Nat) (seg tail : List Nat)
    (h : ∀ suf, suf ≠ [] → suf <:+ seg → matchAt p (suf ++ tail) = none) :
    replaceAllAux p repl 0 (seg ++ tail) = seg ++ replaceAllAux p repl 0 tail := by
  induction seg with
  | nil => rfl
  | cons b seg ih =>
    have hb : matchAt p (b :: (seg ++ tail)) = none :=
      h (b :: seg) (by simp) (List.suffix_refl _)
    rw [List.cons_append, replaceAllAux_no_match p repl b (seg ++ tail) hb, ih]
    · rfl
    · intro suf hne hsuf
      exact h suf hne (hsuf.trans (List.suffix_cons b seg))

/-- No match starts at a byte other than the first byte of the label. -/
theorem matchAt_head_ne (p : RefPattern) (a : Nat) (l : List Nat) (b : Nat) (s : List Nat)
    (hp : p.label = a :: l) (hab : a ≠ b) : matchAt p (b :: s) = none := by
  unfold matchAt
  rw [hp]
  simp [stripLit, hab]

/-- No symbol of the base64 alphabet is the hyphen. -/
theorem b64Char_ne_hyphen (i : Nat) : b64Char i ≠ 45 := by
  unfold b64Char
  split
  · omega
  · split
    · omega
    · split
      · omega
      · split <;> omega

/-- No symbol of the base64 alphabet is the dollar sign. -/
theorem b64Char_ne_dollar (i : Nat) : b64Char i ≠ 36 := by
  unfold b64Char
  split
  · omega
  · split
    · omega
    · split
      · omega
      · split <;> omega

/-- A byte that is neither a symbol of the alphabet nor the padding `=` does not occur in
base64 text. -/
theorem EncodeToString_avoids (x : Nat) (hx : ∀ i, b64Char i ≠ x) (hpad : x ≠ 61)
    (bytes : List Nat) : x ∉ EncodeToString bytes := by
  induction bytes using EncodeToString.induct with
  | case1 => simp [EncodeToString]
  | case2 a =>
    intro h
    simp only [EncodeToString, List.mem_cons, List.not_mem_nil, or_false] at h
    rcases h with h | h | h | h
    · exact hx _ h.symm
    · exact hx _ h.symm
    · exact hpad h
    · exact hpad h
  | case3 a b =>
    intro h
    simp only [EncodeToString, List.mem_cons, List.not_mem_nil, or_false] at h
    rcases h with h | h | h | h
    · exact hx _ h.symm
    · exact hx _ h.symm
    · exact hx _ h.symm
    · exact hpad h
  | case4 a b c rest ih =>
    intro h
    simp only [EncodeToString, List.mem_cons, List.mem_append, List.not_mem_nil,
      or_false] at h
    rcases h with (h | h | h | h) | h
    · exact hx _ h.symm
    · exact hx _ h.symm
    · exact hx _ h.symm
    · exact hx _ h.symm
    · exact ih h

/-- The base64 text of any bytes has no hyphen. -/
theorem EncodeToString_no_hyphen (bytes : List Nat) : 45 ∉ EncodeToString bytes :=
  EncodeToString_avoids 45 b64Char_ne_hyphen (by decide) bytes

/-- The two replacement texts of `LoadHubConfig` have no `$`, so `ReplaceAllString` copies
them as they are. -/
theorem replacement_no_dollar (bytes : List Nat) :
    36 ∉ ascii "client-certificate-data: " ++ EncodeToString bytes ∧
    36 ∉ ascii "client-key-data: " ++ EncodeToString bytes := by
  have h := EncodeToString_avoids 36 b64Char_ne_dollar (by decide) bytes
  constructor
  · intro hm
    rcases List.mem_append.mp hm with h1 | h1
    · exact absurd h1 (by decide)
    · exact h h1
  · intro hm
    rcases List.mem_append.mp hm with h1 | h1
    · exact absurd h1 (by decide)
    · exact h h1

/-- A run of white space before a text drops with the white space of the text. -/
theorem dropWhile_isSpace_append (ws rest : List Nat) (h : ∀ x ∈ ws, isSpace x = true) :
    (ws ++ rest).dropWhile isSpace = rest.dropWhile isSpace := by
  induction ws with
  | nil => rfl
  | cons x ws ih =>
    rw [List.cons_append, List.dropWhile_cons, if_pos (h x (List.mem_cons_self x ws))]
    exact ih (fun y hy => h y (List.mem_cons_of_mem x hy))

/-- After the label, a run of white space counts as one space. -/
theorem matchAt_blanks (p : RefPattern) (b : Nat) (ws rest : List Nat)
    (hb : isSpace b = true) (hws : ∀ x ∈ ws, isSpace x = true) :
    matchAt p (p.label ++ b :: (ws ++ rest)) = matchAt p (p.label ++ 32 :: rest) := by
  unfold matchAt
  rw [stripLit_append, stripLit_append]
  simp only
  rw [if_pos hb, if_pos (by decide : isSpace 32 = true), dropWhile_isSpace_append ws rest hws]

/-- C4 as stated fails: the first line of `looseTemplate` has two spaces after the label and
the second names the file `tls.key.bak`, so neither is the line
`client-certificate: tls.crt` or `client-key: tls.key` and the line-by-line rewrite keeps
both, yet the code rewrites the first and replaces a part of the second. -/
theorem rewriteKubeconfig_alters_other_line :
    rewriteLines looseTemplate (ascii "CERT") (ascii "KEY") = looseTemplate ∧
    rewriteKubeconfig looseTemplate (ascii "CERT") (ascii "KEY")
      = ascii "    client-certificate-data: Q0VSVA==\n    client-key-data: S0VZ.bak\n" ∧
    rewriteKubeconfig looseTemplate (ascii "CERT") (ascii "KEY")
      ≠ rewriteLines looseTemplate (ascii "CERT") (ascii "KEY") := by
  decide

/-- The `.` of the pattern stands for any rune: a line naming the file `tls_crt` is no
reference to `tls.crt`, and the code replaces it all the same. -/
theorem rewriteKubeconfig_other_file_name :
    rewriteKubeconfig otherFileTemplate (ascii "CERT") (ascii "KEY")
      = ascii "    client-certificate-data: Q0VSVA==\n    client-key-data: S0VZ\n" := by
  decide

/-! ## Results: the rewrite replaces the references in place -/

set_option maxRecDepth 100000

/-- The shape of a reference. -/
theorem refAt_shape (p : RefPattern) (s r : List Nat) (h : refAt p s = some r) :
    ∃ b ws, s = p.label ++ b :: (ws ++ (p.stem ++ 46 :: p.ext ++ r)) ∧ isSpace b = true ∧
      ∀ x ∈ ws, isSpace x = true := by
  unfold refAt at h
  rcases hl : stripLit p.label s with _ | s1
  · simp [hl] at h
  rw [hl] at h
  cases s1 with
  | nil => simp at h
  | cons b s2 =>
    simp only at h
    by_cases hb : isSpace b = true
    · rw [if_pos hb] at h
      have h1 := stripLit_eq_some _ _ _ h
      refine ⟨b, s2.takeWhile isSpace, ?_, hb, fun x hx => List.mem_takeWhile_imp hx⟩
      rw [stripLit_eq_some p.label s _ hl]
      conv_lhs => rw [← List.takeWhile_append_dropWhile isSpace s2, h1]
    · rw [if_neg hb] at h
      cases h

/-- A reference is a non-empty piece at the head of the text. -/
theorem refAt_split (p : RefPattern) (s r : List Nat) (h : refAt p s = some r) :
    ∃ m, s = m ++ r ∧ 0 < m.length := by
  obtain ⟨b, ws, hs, -, -⟩ := refAt_shape p s r h
  refine ⟨p.label ++ b :: (ws ++ (p.stem ++ 46 :: p.ext)), ?_, by simp⟩
  rw [hs]
  simp

/-- Passing over `skip` bytes is dropping them. -/
theorem rewriteRefsAux_skip (certData keyData : List Nat) (skip : Nat) (t : List Nat) :
    rewriteRefsAux certData keyData skip t = rewriteRefsAux certData keyData 0 (t.drop skip) := by
  induction t generalizing skip with
  | nil => simp [rewriteRefsAux]
  | cons b t ih =>
    cases skip with
    | zero => rfl
    | succ k =>
      simp only [rewriteRefsAux, List.drop_succ_cons]
      exact ih k

/-- The scan after a non-empty piece `m` that has been replaced. -/
theorem rewriteRefsAux_after (certData keyData : List Nat) (b : Nat) (t m r : List Nat)
    (hm : b :: t = m ++ r) (hlen : 0 < m.length) :
    rewriteRefsAux certData keyData ((b :: t).length - r.length - 1) t =
      rewriteRefsAux certData keyData 0 r := by
  rw [rewriteRefsAux_skip]
  cases m with
  | nil => simp at hlen
  | cons b' m =>
    simp only [List.cons_append, List.cons.injEq] at hm
    have ht : t = m ++ r := hm.2
    have hl : (b :: t).length - r.length - 1 = m.length := by
      rw [ht]
      simp
      omega
    rw [hl, ht, List.drop_left]

/-- At a reference to the certificate file the certificate field is written. -/
theorem rewriteRefsAux_cert (certData keyData s r : List Nat)
    (h : refAt certPattern s = some r) :
    rewriteRefsAux certData keyData 0 s = certData ++ rewriteRefsAux certData keyData 0 r := by
  obtain ⟨m, hm, hlen⟩ := refAt_split certPattern s r h
  cases s with
  | nil =>
    cases m with
    | nil => simp at hlen
    | cons b m => simp at hm
  | cons b t =>
    simp only [rewriteRefsAux, h]
    rw [rewriteRefsAux_after certData keyData b t m r hm hlen]

/-- At a reference to the key file the key field is written. -/
theorem rewriteRefsAux_key (certData keyData s r : List Nat)
    (hc : refAt certPattern s = none) (h : refAt keyPattern s = some r) :
    rewriteRefsAux certData keyData 0 s = keyData ++ rewriteRefsAux certData keyData 0 r := by
  obtain ⟨m, hm, hlen⟩ := refAt_split keyPattern s r h
  cases s with
  | nil =>
    cases m with
    | nil => simp at hlen
    | cons b m => simp at hm
  | cons b t =>
    simp only [rewriteRefsAux, hc, h]
    rw [rewriteRefsAux_after certData keyData b t m r hm hlen]

/-- Where no reference starts the head byte is copied. -/
theorem rewriteRefsAux_none (certData keyData : List Nat) (b : Nat) (t : List Nat)
    (hc : refAt certPattern (b :: t) = none) (hk : refAt keyPattern (b :: t) = none) :
    rewriteRefsAux certData keyData 0 (b :: t) = b :: rewriteRefsAux certData keyData 0 t := by
  simp only [rewriteRefsAux, hc, hk]

/-- Bytes other than `c` are copied as they are by a pattern whose label starts with `c`. -/
theorem replaceAllAux_no_c (p : RefPattern) (repl seg rest l : List Nat)
    (hp : p.label = 99 :: l) (hseg : 99 ∉ seg) :
    replaceAllAux p repl 0 (seg ++ rest) = seg ++ replaceAllAux p repl 0 rest := by
  induction seg with
  | nil => rfl
  | cons b seg ih =>
    have hne : (99 : Nat) ≠ b := fun e => hseg (by simp [e])
    rw [List.cons_append, replaceAllAux_no_match p repl b (seg ++ rest)
      (matchAt_head_ne p 99 l b (seg ++ rest) hp hne),
      ih (fun h => hseg (List.mem_cons_of_mem b h))]
    rfl

/-- A word without `c` at the head of the output of a pass stood at the head of its input
and was copied. -/
theorem replaceAllAux_word (p : RefPattern) (repl w s : List Nat)
    (hw : 99 ∉ w) (h : w <+: replaceAllAux p (99 :: repl) 0 s) :
    ∃ s', s = w ++ s' ∧
      replaceAllAux p (99 :: repl) 0 s = w ++ replaceAllAux p (99 :: repl) 0 s' := by
  induction w generalizing s with
  | nil => exact ⟨s, rfl, rfl⟩
  | cons a w ih =>
    have ha : a ≠ 99 := fun e => hw (by simp [e])
    have hw' : 99 ∉ w := fun e => hw (List.mem_cons_of_mem a e)
    cases s with
    | nil => simp [replaceAllAux] at h
    | cons x t =>
      rcases hm : matchAt p (x :: t) with _ | rest
      · rw [replaceAllAux_no_match p _ x t hm] at h ⊢
        rw [List.cons_prefix_cons] at h
        obtain ⟨s', hs', hR⟩ := ih t hw' h.2
        refine ⟨s', ?_, ?_⟩
        · rw [h.1, hs']
          rfl
        · rw [hR, h.1]
          rfl
      · rw [replaceAllAux_match p _ (x :: t) rest hm, List.cons_append,
          List.cons_prefix_cons] at h
        exact absurd h.1 ha

/-- A word at the head of `suf ++ X` lies in `suf` or runs over its end into `X`. -/
theorem prefix_append_split (l suf X : List Nat) (h : l <+: suf ++ X) :
    l <+: suf ∨ (suf.length < l.length ∧ l.take suf.length = suf ∧
      l.drop suf.length <+: X) := by
  induction suf generalizing l with
  | nil =>
    cases l with
    | nil => exact Or.inl List.nil_prefix
    | cons b l => exact Or.inr ⟨by simp, rfl, by simpa using h⟩
  | cons a suf ih =>
    cases l with
    | nil => exact Or.inl List.nil_prefix
    | cons b l =>
      rw [List.cons_append, List.cons_prefix_cons] at h
      rcases ih l h.2 with h1 | ⟨h1, h2, h3⟩
      · exact Or.inl (List.cons_prefix_cons.mpr ⟨h.1, h1⟩)
      · refine Or.inr ⟨by simpa using h1, ?_, by simpa using h3⟩
        simp [h.1, h2]

/-- The key pattern copies an inserted certificate field as it is, unless it matches
across the end of the base64 text. -/
theorem keyPass_certData (repl tlsCrt X : List Nat)
    (hX : ∀ u ∈ keyLabelHeads, u <:+ EncodeToString tlsCrt →
      matchAt keyPattern (u ++ X) = none) :
    replaceAllAux keyPattern repl 0
      ((ascii "client-certificate-data: " ++ EncodeToString tlsCrt) ++ X) =
      (ascii "client-certificate-data: " ++ EncodeToString tlsCrt) ++
        replaceAllAux keyPattern repl 0 X := by
  have hfixed : ∀ rest : List Nat,
      replaceAllAux keyPattern repl 0 (ascii "client-certificate-data: " ++ rest) =
        ascii "client-certificate-data: " ++ replaceAllAux keyPattern repl 0 rest :=
    fun _ => rfl
  have hb64 : replaceAllAux keyPattern repl 0 (EncodeToString tlsCrt ++ X) =
      EncodeToString tlsCrt ++ replaceAllAux keyPattern repl 0 X := by
    apply replaceAllAux_copy
    intro suf hne hsuf
    rcases hm : matchAt keyPattern (suf ++ X) with _ | r
    · rfl
    exfalso
    have hno : 45 ∉ suf := fun h => EncodeToString_no_hyphen tlsCrt (hsuf.subset h)
    have hlab : ascii "client-key:" <+: suf ++ X := matchAt_label keyPattern _ r hm
    rcases prefix_append_split _ _ _ hlab with h1 | ⟨h1, h2, -⟩
    · exact hno (h1.subset (by decide))
    · have hpos : 0 < suf.length := List.length_pos.mpr hne
      have hlen : (ascii "client-key:").length = 11 := by decide
      rw [hlen] at h1
      have hhead : suf.length ≤ 6 → suf ∈ keyLabelHeads := by
        intro hle
        rw [← h2]
        generalize suf.length = k at hpos hle
        interval_cases k <;> decide
      by_cases hle : suf.length ≤ 6
      · have hnone := hX suf (hhead hle) hsuf
        rw [hm] at hnone
        cases hnone
      · have hmem : 45 ∈ (ascii "client-key:").take suf.length := by
          generalize suf.length = k at h1 hle
          interval_cases k <;> decide
        rw [h2] at hmem
        exact hno hmem
  rw [List.append_assoc, hfixed, hb64, List.append_assoc]

/-- The rune at the head of a text is at least one byte wide. -/
theorem runeWidth_pos (l : List Nat) : 1 ≤ runeWidth l := by
  rcases l with _ | ⟨b0, _ | ⟨b1, _ | ⟨b2, _ | ⟨b3, l⟩⟩⟩⟩ <;>
    simp only [runeWidth] <;> (try split_ifs) <;> omega

/-- The bytes of a rune after its first byte are continuation bytes. -/
theorem runeWidth_cont (c : Nat) (l : List Nat) :
    ∀ x ∈ l.take (runeWidth (c :: l) - 1), 128 ≤ x := by
  rcases l with _ | ⟨b1, _ | ⟨b2, _ | ⟨b3, l⟩⟩⟩ <;>
    simp only [runeWidth] <;> (try split_ifs) <;> simp_all [isCont] <;> omega

/-- The width of a rune is read from the first four bytes of the text. -/
theorem runeWidth_congr (c : Nat) (v y z : List Nat) (hv : 3 ≤ v.length) :
    runeWidth (c :: (v ++ y)) = runeWidth (c :: (v ++ z)) := by
  rcases v with _ | ⟨b1, _ | ⟨b2, _ | ⟨b3, v⟩⟩⟩
  · simp at hv
  · simp at hv
  · simp at hv
  · rfl

/-- The rune taken by `.` in the output of the certificate pass, followed by `key`, stood
in the input, followed by `key`. -/
theorem certPass_rune (rC t2 s4 r : List Nat) (c : Nat)
    (hR : replaceAllAux certPattern (99 :: 108 :: 105 :: 101 :: rC) 0 t2 = c :: s4)
    (hext : stripLit (ascii "key") ((c :: s4).drop (runeWidth (c :: s4))) = some r) :
    ∃ t3 r', t2 = c :: t3 ∧
      stripLit (ascii "key") ((c :: t3).drop (runeWidth (c :: t3))) = some r' := by
  have hkey : ascii "key" = [107, 101, 121] := by decide
  cases t2 with
  | nil => simp [replaceAllAux] at hR
  | cons x t3 =>
    rcases hm : matchAt certPattern (x :: t3) with _ | rest
    · rw [replaceAllAux_no_match _ _ _ _ hm] at hR
      simp only [List.cons.injEq] at hR
      obtain ⟨hx, hs4⟩ := hR
      subst hx
      subst hs4
      generalize hO : replaceAllAux certPattern (99 :: 108 :: 105 :: 101 :: rC) 0 t3 = O
        at hext
      obtain ⟨k, hk⟩ : ∃ k, runeWidth (x :: O) = k + 1 :=
        ⟨runeWidth (x :: O) - 1, by have := runeWidth_pos (x :: O); omega⟩
      have hcont := runeWidth_cont x O
      rw [hk] at hext hcont
      simp only [List.drop_succ_cons, Nat.add_sub_cancel] at hext hcont
      have h1 := stripLit_eq_some _ _ _ hext
      have hsplit : O = (O.take k ++ ascii "key") ++ r := by
        rw [List.append_assoc, ← h1, List.take_append_drop]
      have hu : 99 ∉ O.take k ++ ascii "key" := by
        intro hmem
        rcases List.mem_append.mp hmem with h | h
        · have := hcont 99 h
          omega
        · exact absurd h (by decide)
      have hpre : O.take k ++ ascii "key" <+:
          replaceAllAux certPattern (99 :: 108 :: 105 :: 101 :: rC) 0 t3 := by
        rw [hO]
        exact ⟨r, hsplit.symm⟩
      obtain ⟨t4, ht3, -⟩ := replaceAllAux_word certPattern (108 :: 105 :: 101 :: rC)
        (O.take k ++ ascii "key") t3 hu hpre
      have hlen : (O.take k).length = k := by
        have h2 : (O.drop k).length = (ascii "key" ++ r).length := by rw [h1]
        have h3 : (ascii "key").length = 3 := by decide
        simp only [List.length_drop, List.length_append, h3] at h2
        simp only [List.length_take]
        omega
      have hw : runeWidth (x :: t3) = k + 1 := by
        have e1 : x :: t3 = x :: ((O.take k ++ ascii "key") ++ t4) := by rw [ht3]
        have e2 : x :: O = x :: ((O.take k ++ ascii "key") ++ r) := by rw [← hsplit]
        rw [e1, runeWidth_congr x _ t4 r (by simp [hkey]), ← e2, hk]
      refine ⟨t3, t4, rfl, ?_⟩
      rw [hw, List.drop_succ_cons, ht3, List.append_assoc]
      have hd : ∀ u : List Nat, u.length = k →
          (u ++ (ascii "key" ++ t4)).drop k = ascii "key" ++ t4 := by
        intro u hlu
        rw [← hlu]
        exact List.drop_left _ _
      rw [hd _ hlen, stripLit_append]
    · rw [replaceAllAux_match _ _ _ _ hm] at hR
      simp only [List.cons_append, List.cons.injEq] at hR
      obtain ⟨hx, hs4⟩ := hR
      subst hx
      subst hs4
      simp [runeWidth, hkey, stripLit] at hext

/-- The shape of a match. -/
theorem matchAt_shape (p : RefPattern) (s r : List Nat) (h : matchAt p s = some r) :
    ∃ b ws c s4, s = p.label ++ b :: (ws ++ (p.stem ++ c :: s4)) ∧ isSpace b = true ∧
      (∀ x ∈ ws, isSpace x = true) ∧ c ≠ 10 ∧
      stripLit p.ext ((c :: s4).drop (runeWidth (c :: s4))) = some r := by
  unfold matchAt at h
  rcases hl : stripLit p.label s with _ | s1
  · simp [hl] at h
  rw [hl] at h
  cases s1 with
  | nil => simp at h
  | cons b s2 =>
    simp only at h
    by_cases hb : isSpace b = true
    · rw [if_pos hb] at h
      rcases hst : stripLit p.stem (s2.dropWhile isSpace) with _ | s3
      · simp [hst] at h
      rw [hst] at h
      cases s3 with
      | nil => simp at h
      | cons c s4 =>
        simp only at h
        by_cases hc : c = 10
        · simp [hc] at h
        · rw [if_neg hc] at h
          refine ⟨b, s2.takeWhile isSpace, c, s4, ?_, hb,
            fun x hx => List.mem_takeWhile_imp hx, hc, h⟩
          rw [stripLit_eq_some p.label s _ hl]
          conv_lhs => rw [← List.takeWhile_append_dropWhile isSpace s2,
            stripLit_eq_some p.stem _ _ hst]
    · rw [if_neg hb] at h
      cases h

/-- The key pattern after its label and one space. -/
theorem matchAt_key_tail (c : Nat) (s4 : List Nat) :
    matchAt keyPattern (ascii "client-key:" ++ 32 :: (ascii "tls" ++ c :: s4)) =
      if c = 10 then none
      else stripLit (ascii "key") ((c :: s4).drop (runeWidth (c :: s4))) :=
  rfl

/-- A white-space byte is not the byte `c`. -/
theorem ne_c_of_isSpace (x : Nat) (h : isSpace x = true) : x ≠ 99 := by
  intro e
  rw [e] at h
  exact absurd h (by decide)

/-- A match of the key pattern in the output of the certificate pass, at a place where the
certificate pattern does not match, is a match of the key pattern in its input. -/
theorem keyMatch_of_certPass (rC s r : List Nat) (hc : matchAt certPattern s = none)
    (hm : matchAt keyPattern
      (replaceAllAux certPattern (99 :: 108 :: 105 :: 101 :: rC) 0 s) = some r) :
    ∃ r', matchAt keyPattern s = some r' := by
  obtain ⟨b, ws, c, s4, hshape, hb, hws, hc10, hext⟩ := matchAt_shape _ _ _ hm
  have hshape' : replaceAllAux certPattern (99 :: 108 :: 105 :: 101 :: rC) 0 s =
      99 :: ((ascii "lient-key:" ++ b :: (ws ++ ascii "tls")) ++ c :: s4) := by
    rw [hshape]
    show ascii "client-key:" ++ b :: (ws ++ (ascii "tls" ++ c :: s4)) = _
    have e : ascii "client-key:" = 99 :: ascii "lient-key:" := by decide
    rw [e]
    simp
  cases s with
  | nil => simp [replaceAllAux] at hshape'
  | cons x t =>
    rw [replaceAllAux_no_match _ _ _ _ hc] at hshape'
    simp only [List.cons.injEq] at hshape'
    obtain ⟨hx, ht⟩ := hshape'
    have hW : 99 ∉ ascii "lient-key:" ++ b :: (ws ++ ascii "tls") := by
      intro hmem
      rcases List.mem_append.mp hmem with h | h
      · exact absurd h (by decide)
      · rcases List.mem_cons.mp h with h | h
        · exact ne_c_of_isSpace b hb h.symm
        · rcases List.mem_append.mp h with h | h
          · exact ne_c_of_isSpace 99 (hws 99 h) rfl
          · exact absurd h (by decide)
    obtain ⟨t2, ht2, hR2⟩ := replaceAllAux_word certPattern (108 :: 105 :: 101 :: rC) _ t hW
      ⟨c :: s4, ht.symm⟩
    rw [hR2] at ht
    have hR : replaceAllAux certPattern (99 :: 108 :: 105 :: 101 :: rC) 0 t2 = c :: s4 :=
      List.append_cancel_left ht
    obtain ⟨t3, r', ht3, hext'⟩ := certPass_rune rC t2 s4 r c hR hext
    refine ⟨r', ?_⟩
    have hs : x :: t = keyPattern.label ++ b :: (ws ++ (ascii "tls" ++ c :: t3)) := by
      rw [hx, ht2, ht3]
      show _ = ascii "client-key:" ++ b :: (ws ++ (ascii "tls" ++ c :: t3))
      have e : ascii "client-key:" = 99 :: ascii "lient-key:" := by decide
      rw [e]
      simp
    rw [hs, matchAt_blanks keyPattern b ws _ hb hws]
    show matchAt keyPattern (ascii "client-key:" ++ 32 :: (ascii "tls" ++ c :: t3)) = some r'
    rw [matchAt_key_tail, if_neg hc10, hext']

/-- A match of the key pattern that starts in a beginning of the key label and runs into
the output of the certificate pass is a match with the input of the pass in its place. -/
theorem keyMatch_across (rC u rest r : List Nat) (hu : u ∈ keyLabelHeads)
    (hm : matchAt keyPattern
      (u ++ replaceAllAux certPattern (99 :: 108 :: 105 :: 101 :: rC) 0 rest) = some r) :
    ∃ r', matchAt keyPattern (u ++ rest) = some r' := by
  obtain ⟨w, hw, hwc⟩ : ∃ w, u ++ w = ascii "client-key:" ∧ 99 ∉ w :=
    (by decide : ∀ v ∈ keyLabelHeads, ∃ w ∈ (ascii "lient-key:").tails,
      v ++ w = ascii "client-key:" ∧ 99 ∉ w) u hu |>.elim fun w h => ⟨w, h.2⟩
  have hlab : u ++ w <+: u ++ replaceAllAux certPattern
      (99 :: 108 :: 105 :: 101 :: rC) 0 rest := by
    rw [hw]
    exact matchAt_label keyPattern _ r hm
  have hpre := (List.prefix_append_right_inj u).mp hlab
  obtain ⟨s', hs', hR⟩ := replaceAllAux_word certPattern _ w rest hwc hpre
  have hlabel : ∀ Z : List Nat,
      replaceAllAux certPattern (99 :: 108 :: 105 :: 101 :: rC) 0 (ascii "client-key:" ++ Z) =
        ascii "client-key:" ++ replaceAllAux certPattern (99 :: 108 :: 105 :: 101 :: rC) 0 Z :=
    fun _ => rfl
  have hno : ∀ Z : List Nat, matchAt certPattern (ascii "client-key:" ++ Z) = none :=
    fun _ => rfl
  have e1 : u ++ rest = ascii "client-key:" ++ s' := by
    rw [hs', ← List.append_assoc, hw]
  have e2 : u ++ replaceAllAux certPattern (99 :: 108 :: 105 :: 101 :: rC) 0 rest =
      replaceAllAux certPattern (99 :: 108 :: 105 :: 101 :: rC) 0 (ascii "client-key:" ++ s') := by
    rw [hR, ← List.append_assoc, hw, hlabel]
  rw [e2] at hm
  rw [e1]
  exact keyMatch_of_certPass rC _ r (hno s') hm

/-- The two passes of the code on a text all of whose matches are references and in which
the key pattern does not match across the end of an inserted certificate field: together
they replace the references in place. -/
theorem rewrite_passes (tlsCrt tlsKey : List Nat) (n : Nat) :
    ∀ s : List Nat, s.length ≤ n →
      (∀ s', s' <:+ s → matchAt certPattern s' = refAt certPattern s' ∧
        matchAt keyPattern s' = refAt keyPattern s') →
      (∀ s' rest, s' <:+ s → refAt certPattern s' = some rest →
        ∀ u ∈ keyLabelHeads, u <:+ EncodeToString tlsCrt →
          matchAt keyPattern (u ++ rest) = none) →
      replaceAllAux keyPattern (ascii "client-key-data: " ++ EncodeToString tlsKey) 0
        (replaceAllAux certPattern
          (ascii "client-certificate-data: " ++ EncodeToString tlsCrt) 0 s) =
      rewriteRefsAux (ascii "client-certificate-data: " ++ EncodeToString tlsCrt)
        (ascii "client-key-data: " ++ EncodeToString tlsKey) 0 s := by
  have hC : ascii "client-certificate-data: " ++ EncodeToString tlsCrt =
      99 :: 108 :: 105 :: 101 :: (ascii "nt-certificate-data: " ++ EncodeToString tlsCrt) :=
    rfl
  induction n with
  | zero =>
    intro s hlen _ _
    have hs : s = [] := List.length_eq_zero.mp (Nat.le_zero.mp hlen)
    rw [hs]
    simp [replaceAllAux, rewriteRefsAux]
  | succ n ih =>
    intro s hlen h1 h2
    cases s with
    | nil => simp [replaceAllAux, rewriteRefsAux]
    | cons b t =>
      have hself := h1 (b :: t) (List.suffix_refl _)
      have hlt : t.length ≤ n := by
        simp only [List.length_cons] at hlen
        omega
      rcases hcr : refAt certPattern (b :: t) with _ | rest
      · have hcm : matchAt certPattern (b :: t) = none := hself.1.trans hcr
        rcases hkr : refAt keyPattern (b :: t) with _ | rest
        · have hkm : matchAt keyPattern (b :: t) = none := hself.2.trans hkr
          have hq : matchAt keyPattern (b :: replaceAllAux certPattern
              (ascii "client-certificate-data: " ++ EncodeToString tlsCrt) 0 t) = none := by
            rcases hq : matchAt keyPattern (b :: replaceAllAux certPattern
              (ascii "client-certificate-data: " ++ EncodeToString tlsCrt) 0 t) with _ | r
            · rfl
            · exfalso
              have hq' : matchAt keyPattern (replaceAllAux certPattern
                  (99 :: 108 :: 105 :: 101 ::
                    (ascii "nt-certificate-data: " ++ EncodeToString tlsCrt)) 0 (b :: t))
                  = some r := by
                rw [← hC, replaceAllAux_no_match _ _ _ _ hcm]
                exact hq
              obtain ⟨r', hr'⟩ := keyMatch_of_certPass _ _ _ hcm hq'
              rw [hkm] at hr'
              cases hr'
          rw [replaceAllAux_no_match _ _ _ _ hcm, replaceAllAux_no_match _ _ _ _ hq,
            rewriteRefsAux_none _ _ _ _ hcr hkr,
            ih t hlt (fun s' hs' => h1 s' (hs'.trans (List.suffix_cons b t)))
              (fun s' rest hs' => h2 s' rest (hs'.trans (List.suffix_cons b t)))]
        · obtain ⟨sp, ws, hshape, hsp, hws⟩ := refAt_shape _ _ _ hkr
          have e : b :: t = ascii "client-key:" ++ ((sp :: ws) ++ (ascii "tls.key" ++ rest)) := by
            rw [hshape]
            show ascii "client-key:" ++ sp :: (ws ++ (ascii "tls.key" ++ rest)) = _
            simp
          have hblank : 99 ∉ sp :: ws := by
            intro hmem
            rcases List.mem_cons.mp hmem with h | h
            · exact ne_c_of_isSpace sp hsp h.symm
            · exact ne_c_of_isSpace 99 (hws 99 h) rfl
          have hlabel : ∀ Z : List Nat,
              replaceAllAux certPattern
                (ascii "client-certificate-data: " ++ EncodeToString tlsCrt) 0
                (ascii "client-key:" ++ Z) =
              ascii "client-key:" ++ replaceAllAux certPattern
                (ascii "client-certificate-data: " ++ EncodeToString tlsCrt) 0 Z :=
            fun _ => rfl
          have hR1 : replaceAllAux certPattern
              (ascii "client-certificate-data: " ++ EncodeToString tlsCrt) 0 (b :: t) =
              ascii "client-key:" ++ sp :: (ws ++ (ascii "tls.key" ++
                replaceAllAux certPattern
                  (ascii "client-certificate-data: " ++ EncodeToString tlsCrt) 0 rest)) := by
            rw [e, hlabel, replaceAllAux_no_c certPattern _ _ _ _ rfl hblank,
              replaceAllAux_no_c certPattern _ (ascii "tls.key") _ _ rfl (by decide)]
            simp
          have hm2 : ∀ Y : List Nat, matchAt keyPattern
              (ascii "client-key:" ++ sp :: (ws ++ (ascii "tls.key" ++ Y))) = some Y := by
            intro Y
            have hb := matchAt_blanks keyPattern sp ws (ascii "tls.key" ++ Y) hsp hws
            exact hb.trans rfl
          obtain ⟨m, hm, hmlen⟩ := refAt_split _ _ _ hkr
          have hrl : rest.length ≤ n := by
            have := congrArg List.length hm
            simp only [List.length_cons, List.length_append] at this hlen
            omega
          have hsuf : rest <:+ b :: t := ⟨m, hm.symm⟩
          rw [hR1, replaceAllAux_match _ _ _ _ (hm2 _), rewriteRefsAux_key _ _ _ _ hcr hkr,
            ih rest hrl (fun s' hs' => h1 s' (hs'.trans hsuf))
              (fun s' r hs' => h2 s' r (hs'.trans hsuf))]
      · have hcm : matchAt certPattern (b :: t) = some rest := hself.1.trans hcr
        obtain ⟨m, hm, hmlen⟩ := refAt_split _ _ _ hcr
        have hrl : rest.length ≤ n := by
          have := congrArg List.length hm
          simp only [List.length_cons, List.length_append] at this hlen
          omega
        have hsuf : rest <:+ b :: t := ⟨m, hm.symm⟩
        have hX : ∀ u ∈ keyLabelHeads, u <:+ EncodeToString tlsCrt →
            matchAt keyPattern (u ++ replaceAllAux certPattern
              (ascii "client-certificate-data: " ++ EncodeToString tlsCrt) 0 rest) = none := by
          intro u hu hend
          rcases hq : matchAt keyPattern (u ++ replaceAllAux certPattern
              (ascii "client-certificate-data: " ++ EncodeToString tlsCrt) 0 rest) with _ | r
          · rfl
          · exfalso
            rw [hC] at hq
            obtain ⟨r', hr'⟩ := keyMatch_across _ u rest r hu hq
            rw [h2 (b :: t) rest (List.suffix_refl _) hcr u hu hend] at hr'
            cases hr'
        rw [replaceAllAux_match _ _ _ _ hcm, keyPass_certData _ _ _ hX,
          rewriteRefsAux_cert _ _ _ _ hcr,
          ih rest hrl (fun s' hs' => h1 s' (hs'.trans hsuf))
            (fun s' r hs' => h2 s' r (hs'.trans hsuf))]

/-- C4 amended: for every template and every certificate and key bytes such that every
match of the two patterns of the code in the template is a field reference (the label, one
or more white-space bytes, and the file name `tls.crt` or `tls.key` written out, with a
literal `.`) and such that the key pattern does not match across the end of an inserted
certificate field (whenever the base64 text of the certificate ends with a beginning `c`,
`cl`, ..., `client` of the key label, that beginning followed by the text after a
reference to `tls.crt` is no match), the rewrite of `LoadHubConfig` replaces the references
in place: each reference to `tls.crt` becomes `client-certificate-data: ` and the standard
base64 of the certificate, each reference to `tls.key` becomes `client-key-data: ` and the
standard base64 of the key, and every byte outside the references, so every line without
a reference, is byte-identical. -/
theorem rewriteKubeconfig_in_place (secretkconfig tlsCrt tlsKey : List Nat)
    (h1 : ∀ s ∈ secretkconfig.tails,
      matchAt certPattern s = refAt certPattern s ∧
      matchAt keyPattern s = refAt keyPattern s)
    (h2 : ∀ s ∈ secretkconfig.tails, ∀ rest ∈ refAt certPattern s,
      ∀ u ∈ keyLabelHeads, u <:+ EncodeToString tlsCrt →
        matchAt keyPattern (u ++ rest) = none) :
    rewriteKubeconfig secretkconfig tlsCrt tlsKey
      = rewriteRefs secretkconfig tlsCrt tlsKey :=
  rewrite_passes tlsCrt tlsKey secretkconfig.length secretkconfig (Nat.le_refl _)
    (fun s' hs' => h1 s' ((List.mem_tails s' secretkconfig).mpr hs'))
    (fun s' rest hs' hr => h2 s' ((List.mem_tails s' secretkconfig).mpr hs') rest hr)

/-- C4 amended, on a template with CRLF line ends and a certificate whose base64 text is
`AAclient`: the reference written with two spaces is replaced, the reference inside
`tls.key.bak` is replaced in place, and the line `client-key: other.key`, like every other
line, is kept. -/
theorem rewriteKubeconfig_in_place_witness :
    rewriteKubeconfig mixedTemplate clientBytes (ascii "KEY")
      = rewriteRefs mixedTemplate clientBytes (ascii "KEY") ∧
    rewriteRefs mixedTemplate clientBytes (ascii "KEY")
      = ascii ("users:\r\n- name: hub\r\n  user:\r\n    client-certificate-data: AAclient\r\n" ++
          "    client-key-data: S0VZ.bak\r\n    client-key: other.key\r\n") :=
  ⟨rewriteKubeconfig_in_place mixedTemplate clientBytes (ascii "KEY")
      (by decide) (by decide), by decide⟩

/-- Why the text after a certificate reference matters: with a certificate whose base64
text ends in `client` and a reference directly followed by `-key: tls.key`, the second
pass of the code finds the key label across the end of the inserted base64 text. -/
theorem rewriteKubeconfig_joined_label :
    EncodeToString clientBytes = ascii "AAclient" ∧
    rewriteKubeconfig joinedTemplate clientBytes (ascii "KEY")
      = ascii "client-certificate-data: AAclient-key-data: S0VZ" ∧
    rewriteRefs joinedTemplate clientBytes (ascii "KEY")
      = ascii "client-certificate-data: AAclient-key: tls.key" := by
  decide

end CertPolicy
